import Mathlib

/-!
Shallow embedding of the capacity-constrained partnership simulation engine
of `run_simulation.py` (ModaMesh / Macron single-model simulation), together
with proofs about it.

Conventions:
* Python `float` arithmetic is modelled with `ℚ` (exact arithmetic).
* Python `int(x)` (truncation towards zero) is `pyInt`.
* Python dictionaries keyed by strings/ints are association lists that keep
  insertion order; assignment overwrites in place (`dictSet`).
* The global `random` stream seeded by `random.seed(seed)` is modelled as an
  abstract stream `Nat → ℚ` of draws (each clamped into `[0,1]`) together with
  a position index; every call to a `random.*` primitive consumes one draw.
* External collaborators that the spec declares out of scope (the market-state
  manager and the brand-side scoring function
  `evaluate_partnership_opportunity`) are modelled as oracle fields of the
  `Engine` structure: the market state consumes a separate numpy stream and is
  observed only through the propensity score fed back into the monthly loop.
-/

namespace Macron

/-- Python `int()` applied to a float: truncation towards zero. -/
def pyInt (q : ℚ) : ℤ := if q < 0 then -⌊-q⌋ else ⌊q⌋

/-- Clamp a rational into `[0,1]`; raw draws of the random stream are
uniform floats in `[0,1)`, so every stream value is normalised with this. -/
def clamp01 (q : ℚ) : ℚ := max 0 (min 1 q)

/-- The state of Python's global `random` generator after `random.seed`:
an abstract stream of draws plus the current position. -/
structure Rng where
  stream : Nat → ℚ
  idx : Nat

/-- `random.random()`: consume one draw, a float in `[0,1]`. -/
def Rng.next (r : Rng) : ℚ × Rng :=
  (clamp01 (r.stream r.idx), { r with idx := r.idx + 1 })

/-- `random.uniform(a, b)`: one draw mapped affinely into `[a,b]`. -/
def pyUniform (r : Rng) (a b : ℚ) : ℚ × Rng :=
  let (d, r) := r.next
  (a + (b - a) * d, r)

/-- `random.randint(a, b)`: one draw mapped onto the integers `a..b`
(for `a ≤ b`; the `min` keeps the edge draw `1` inside the range). -/
def pyRandint (r : Rng) (a b : ℤ) : ℤ × Rng :=
  let (d, r) := r.next
  (a + min (b - a) (pyInt (d * ((b : ℚ) - (a : ℚ) + 1))), r)

/-- Ordered association-list lookup with default (`dict.get(k, d)`). -/
def lookupD {κ α : Type} [BEq κ] (l : List (κ × α)) (k : κ) (d : α) : α :=
  match l.find? (fun kv => kv.1 == k) with
  | some kv => kv.2
  | none => d

/-- Ordered association-list assignment (`d[k] = v`): overwrite in place,
else append, exactly like a Python dict preserving insertion order. -/
def dictSet {κ α : Type} [BEq κ] (l : List (κ × α)) (k : κ) (v : α) :
    List (κ × α) :=
  if l.any (fun kv => kv.1 == k) then
    l.map (fun kv => if kv.1 == k then (k, v) else kv)
  else
    l ++ [(k, v)]

/-- Sum of the values of an association list. -/
def sumValues {κ : Type} (l : List (κ × ℤ)) : ℤ :=
  (l.map (fun kv => kv.2)).sum

/-- `ProductionCapacity` dataclass. -/
structure ProductionCapacity where
  total_annual_capacity : ℤ := 2000000
  new_model_allocation : ℚ := 1/2
  complexity_max_share : List (String × ℚ) :=
    [("Low", 1/2), ("Medium", 2/5), ("High", 3/10), ("Very High", 1/5)]

/-- `ProductionCapacity.get_available_capacity`. -/
def ProductionCapacity.get_available_capacity (pc : ProductionCapacity) : ℤ :=
  pyInt ((pc.total_annual_capacity : ℚ) * pc.new_model_allocation)

/-- `ProductionCapacity.get_product_capacity`. -/
def ProductionCapacity.get_product_capacity (pc : ProductionCapacity)
    (complexity : String) : ℤ :=
  pyInt ((pc.get_available_capacity : ℚ) *
    lookupD pc.complexity_max_share complexity (3/10))

/-- `SimulationConfig` dataclass (fields the engine reads). -/
structure SimulationConfig where
  n_simulations : Nat := 10000
  simulation_years : Nat := 5
  months_per_year : Nat := 12
  min_units_per_product : ℤ := 2000
  max_units_per_product : ℤ := 200000
  production_capacity : ProductionCapacity := {}
  max_shocks_per_simulation : ℤ := 4
  available_shocks : List String :=
    ["recession", "sustainability_push", "tech_boom", "luxury_crisis",
     "luxury_tech_convergence", "athleisure_surge", "supply_chain_crisis",
     "digital_transformation", "gen_z_takeover", "performance_fashion"]
  discount_rate : ℚ := 8/100
  base_seed : Nat := 42

/-- One product of the externally loaded cost table:
name, variable unit cost and complexity tier. -/
structure Product where
  name : String
  variable_cost : ℚ
  complexity : String

/-- The `BrandAgent` fields that the simulation engine reads.
`risk_appetite` and `decision_speed` are the construction-time random fields
(`field(default_factory=lambda: random.random())` in `brand_agent.py`):
they are drawn from the process-global generator when the agent is loaded,
before any trial seeding happens. -/
structure BrandAgent where
  brand_name : String
  annual_revenue_millions : ℚ
  avg_price_index : ℚ
  segment_id : List ℤ
  market_leader_score : ℚ
  technical_capability : ℚ
  sustainability_score : ℚ
  risk_appetite : ℚ
  decision_speed : ℚ

/-- `CapacityTracker` dataclass. -/
structure CapacityTracker where
  annual_capacity : List (String × ℤ)
  committed_capacity : List (String × ℤ)

/-- `CapacityTracker.initialize_annual_capacity`. -/
def CapacityTracker.initialize_annual_capacity
    (products : List Product) (pc : ProductionCapacity) : CapacityTracker :=
  { annual_capacity :=
      products.map (fun p => (p.name, pc.get_product_capacity p.complexity)),
    committed_capacity := products.map (fun p => (p.name, 0)) }

/-- `CapacityTracker.check_capacity`. -/
def CapacityTracker.check_capacity (t : CapacityTracker)
    (product : String) (units : ℤ) : Bool :=
  units ≤ lookupD t.annual_capacity product 0 -
    lookupD t.committed_capacity product 0

/-- `CapacityTracker.commit_capacity`. -/
def CapacityTracker.commit_capacity (t : CapacityTracker)
    (product : String) (units : ℤ) : CapacityTracker :=
  { t with committed_capacity := (dictSet t.committed_capacity product
      (lookupD t.committed_capacity product 0 + units)) }

/-- `CapacityTracker.release_capacity` (clamped at zero). -/
def CapacityTracker.release_capacity (t : CapacityTracker)
    (product : String) (units : ℤ) : CapacityTracker :=
  { t with committed_capacity := (dictSet t.committed_capacity product
      (max 0 (lookupD t.committed_capacity product 0 - units))) }

/-- `CapacityTracker.get_utilization`:
`(total_used / total_capacity * 100) if total_capacity > 0 else 0`. -/
def CapacityTracker.get_utilization (t : CapacityTracker) : ℚ :=
  let total_capacity : ℤ := sumValues t.annual_capacity
  let total_used : ℤ := sumValues t.committed_capacity
  if total_capacity > 0 then (total_used : ℚ) / (total_capacity : ℚ) * 100
  else 0

/-- Segment premium table of `_calculate_pricing` (co-branded branch). -/
def segmentPremiums : List (ℤ × ℚ) :=
  [(1, 0), (2, 2/100), (3, 3/100), (4, 5/100), (5, 7/100), (6, 10/100),
   (7, 12/100)]

/-- `SingleModelSimulation._calculate_pricing`.  `base_cost` is the
product's variable cost from the loaded cost table. -/
def calculate_pricing (base_cost : ℚ) (units : ℤ) (model : String)
    (brand : BrandAgent) : ℚ :=
  if model == "co-branded" then
    let base_margin : ℚ := 28/100
    let brand_premium : ℚ := 6/100 * brand.market_leader_score
    let primary_segment : ℤ := brand.segment_id.headD 3
    let segment_premium : ℚ := lookupD segmentPremiums primary_segment (3/100)
    let marketing_factor : ℚ := 3/100
    let total_markup : ℚ :=
      1 + base_margin + brand_premium + segment_premium + marketing_factor
    let total_markup : ℚ :=
      if units > 30000 then total_markup * (95/100)
      else if units > 20000 then total_markup * (97/100)
      else total_markup
    base_cost * total_markup
  else
    let base_margin : ℚ := 14/100
    let volume_adjustment : ℚ :=
      if units < 5000 then 0
      else if units < 10000 then -2/100
      else if units < 25000 then -5/100
      else -8/100
    let final_margin : ℚ := base_margin + volume_adjustment
    base_cost * (1 + final_margin)

/-- Segment adjustment table of `_calculate_brand_demand`. -/
def segmentAdjustments : List (ℤ × ℚ) :=
  [(1, 1), (2, 1), (3, 9/10), (4, 7/10), (5, 6/10), (6, 1/2), (7, 2/5)]

/-- `SingleModelSimulation._calculate_brand_demand`: returns the desired
unit count (the second component of the Python pair is always `None`). -/
def calculate_brand_demand (cfg : SimulationConfig) (brand : BrandAgent)
    (model : String) (rng : Rng) : ℤ × Rng :=
  let estimated_annual_units : ℚ :=
    brand.annual_revenue_millions * 1000000 / brand.avg_price_index
  let base_demand_percentage : ℚ :=
    if model == "co-branded" then 1/100 else 15/1000
  let base_units : ℤ := pyInt (estimated_annual_units * base_demand_percentage)
  let primary_segment : ℤ := brand.segment_id.headD 3
  let segment_adjustment : ℚ :=
    lookupD segmentAdjustments primary_segment (8/10)
  let adjusted_units : ℤ := pyInt ((base_units : ℚ) * segment_adjustment)
  let (j, rng) := pyUniform rng (8/10) (12/10)
  let final_units : ℤ := pyInt ((adjusted_units : ℚ) * j)
  let final_units : ℤ := max 1000 final_units
  let final_units : ℤ := min final_units cfg.max_units_per_product
  (final_units, rng)

/-- Does `hay` start with `needle` (on character lists)? -/
def listStartsWith (hay needle : List Char) : Bool :=
  match needle, hay with
  | [], _ => true
  | _ :: _, [] => false
  | n :: ns, h :: hs => n == h && listStartsWith hs ns

/-- Substring test on character lists. -/
def listContainsSub (hay needle : List Char) : Bool :=
  match hay with
  | [] => needle == []
  | _ :: t => listStartsWith hay needle || listContainsSub t needle

/-- Python's `needle in hay` substring test for strings. -/
def strContains (hay needle : String) : Bool :=
  listContainsSub hay.toList needle.toList

/-- One weighted pick of `random.choices`: walk the cumulative weights and
return the first entry whose cumulative weight exceeds the target. -/
def pickWeighted (l : List (String × ℚ)) (target : ℚ) (acc : ℚ)
    (dflt : String) : String :=
  match l with
  | [] => dflt
  | (p, w) :: rest =>
      if target < acc + w then p else pickWeighted rest target (acc + w) p

/-- `random.choices(population, weights, k)`: `k` independent weighted draws
with replacement, one stream draw each. -/
def pyChoices (rng : Rng) (weights : List (String × ℚ)) (k : Nat) :
    List String × Rng :=
  match k with
  | 0 => ([], rng)
  | k + 1 =>
      let (d, rng) := rng.next
      let total := (weights.map (fun kv => kv.2)).sum
      let p := pickWeighted weights (d * total) 0 ""
      let (rest, rng) := pyChoices rng weights k
      (p :: rest, rng)

/-- The unit-distribution loop at the end of
`_allocate_products_to_brand`: every selected product except the last gets
`int(remaining * uniform(0.2, 0.5))` units, the last gets the remainder;
assignments go into a dict, so a product selected twice is overwritten. -/
def distributeUnits (sel : List String) (remaining : ℤ)
    (alloc : List (String × ℤ)) (rng : Rng) : List (String × ℤ) × Rng :=
  match sel with
  | [] => (alloc, rng)
  | [p] => (dictSet alloc p remaining, rng)
  | p :: rest =>
      let (u, rng) := pyUniform rng (1/5) (1/2)
      let units := pyInt ((remaining : ℚ) * u)
      distributeUnits rest (remaining - units) (dictSet alloc p units) rng

/-- The brand-profile-dependent product weight of
`_allocate_products_to_brand`. -/
def productWeight (brand : BrandAgent) (p : Product) : ℚ :=
  let w : ℚ := 1
  let w := if strContains p.name "Hydrotex" || strContains p.name "PCM" ||
      strContains p.name "HD" then w * (1 + (8/10 - brand.technical_capability))
    else w
  let w := if strContains p.name "Recycled" || strContains p.name "Bio" ||
      strContains p.name "Eco" then w * (1 + brand.sustainability_score)
    else w
  if brand.segment_id.contains 7 &&
      (p.complexity == "High" || p.complexity == "Very High") then w * (3/2)
  else w

/-- `SingleModelSimulation._allocate_products_to_brand`. -/
def allocate_products_to_brand (products : List Product) (brand : BrandAgent)
    (total_units : ℤ) (rng : Rng) : List (String × ℤ) × Rng :=
  let weights := products.map (fun p => (p.name, productWeight brand p))
  let (n_products, rng) := pyRandint rng 1 (min 4 (products.length : ℤ))
  let (selected_products, rng) := pyChoices rng weights n_products.toNat
  distributeUnits selected_products total_units [] rng

/-- Segment priority table of `_macron_capacity_allocation`, co-branded. -/
def cbSegmentPriorityTable : List (ℤ × ℚ) :=
  [(7, 2), (6, 9/5), (5, 3/2), (4, 6/5), (3, 1), (2, 9/10), (1, 4/5)]

/-- Segment priority table of `_macron_capacity_allocation`, white-label. -/
def wlSegmentPriorityTable : List (ℤ × ℚ) :=
  [(1, 3/2), (2, 7/5), (3, 13/10), (4, 1), (5, 4/5), (6, 3/5), (7, 2/5)]

/-- The strategic priority score computed at the top of
`_macron_capacity_allocation`. -/
def priorityScore (brand : BrandAgent) (model : String) : ℚ :=
  let revenue_factor : ℚ := min (brand.annual_revenue_millions / 1000) 2
  let p : ℚ := revenue_factor * (3/10)
  let primary_segment : ℤ := brand.segment_id.headD 3
  let segment_priority : ℚ :=
    if model == "co-branded" then
      lookupD cbSegmentPriorityTable primary_segment 1
    else lookupD wlSegmentPriorityTable primary_segment 1
  let p := p + segment_priority * (4/10)
  p + brand.market_leader_score * (3/10)

/-- Per-product availability list computed inside
`_macron_capacity_allocation` (fresh tier cap minus committed units). -/
def productAvailability (cfg : SimulationConfig) (products : List Product)
    (tracker : CapacityTracker) : List (String × ℤ) :=
  products.map (fun p =>
    (p.name, cfg.production_capacity.get_product_capacity p.complexity -
      lookupD tracker.committed_capacity p.name 0))

/-- `SingleModelSimulation._macron_capacity_allocation`: Macron's allocation
decision `(granted_units, per-product allocation)`. -/
def macron_capacity_allocation (cfg : SimulationConfig)
    (products : List Product) (desired_units : ℤ) (model : String)
    (tracker : CapacityTracker) (brand : BrandAgent) (rng : Rng) :
    (ℤ × List (String × ℤ)) × Rng :=
  let priority_score := priorityScore brand model
  let product_availability := productAvailability cfg products tracker
  let total_available := sumValues product_availability
  if total_available == 0 then ((0, []), rng)
  else
    let capacity_cap := pyInt ((total_available : ℚ) * (2/10))
    let model_cap : ℤ := if model == "co-branded" then 50000 else 100000
    let allocated_units := min (min desired_units capacity_cap) model_cap
    let allocated_units :=
      if priority_score > 3/2 then
        pyInt ((allocated_units : ℚ) * min priority_score (13/10))
      else allocated_units
    if allocated_units < 1000 then ((0, []), rng)
    else
      let (product_allocation, rng) :=
        allocate_products_to_brand products brand allocated_units rng
      let final_allocation := product_allocation.filterMap (fun pu =>
        let avail := lookupD product_availability pu.1 0
        if avail ≥ pu.2 then some pu
        else if avail ≥ 1000 then some (pu.1, avail) else none)
      let total_allocated := sumValues final_allocation
      if total_allocated < 1000 then ((0, []), rng)
      else ((total_allocated, final_allocation), rng)

/-- Per-product record stored in `PartnershipDeal.products`. -/
structure DealProduct where
  units : ℤ
  price : ℚ
  variable_cost : ℚ
  annual_revenue : ℚ
  annual_cogp : ℚ
  annual_profit : ℚ

/-- `PartnershipDeal` dataclass. -/
structure PartnershipDeal where
  brand_name : String
  model : String
  start_month : Nat
  end_month : Nat
  products : List (String × DealProduct)
  monthly_revenue : ℚ
  monthly_profit : ℚ
  segment : ℤ
  annual_units : ℤ

/-- Variable cost of a product from the loaded cost table. -/
def productCost (products : List Product) (name : String) : ℚ :=
  lookupD (products.map (fun p => (p.name, p.variable_cost))) name 0

/-- One iteration of the deal-financials loop: price the product's units,
compute annual revenue, cost of goods and profit, and accrue the monthly
figures. -/
def dealFinStep (products : List Product) (model : String)
    (brand : BrandAgent) (acc : List (String × DealProduct) × ℚ × ℚ)
    (pu : String × ℤ) : List (String × DealProduct) × ℚ × ℚ :=
  let price := calculate_pricing (productCost products pu.1) pu.2 model brand
  let variable_cost := productCost products pu.1
  let annual_revenue := price * (pu.2 : ℚ)
  let annual_cogp := variable_cost * (pu.2 : ℚ)
  let annual_profit := annual_revenue - annual_cogp
  (acc.1 ++ [(pu.1,
    { units := pu.2, price := price, variable_cost := variable_cost,
      annual_revenue := annual_revenue, annual_cogp := annual_cogp,
      annual_profit := annual_profit })],
   acc.2.1 + annual_revenue / 12, acc.2.2 + annual_profit / 12)

/-- The deal-financials loop shared verbatim by the renewal branch and the
new-deal branch of the monthly loop. -/
def dealFinancials (products : List Product) (alloc : List (String × ℤ))
    (model : String) (brand : BrandAgent) :
    List (String × DealProduct) × ℚ × ℚ :=
  alloc.foldl (dealFinStep products model brand) ([], 0, 0)

/-- Add a rational to an entry of a `String → ℚ` dict (`d[k] += v`). -/
def dictAdd (l : List (String × ℚ)) (k : String) (v : ℚ) :
    List (String × ℚ) :=
  dictSet l k (lookupD l k 0 + v)

/-- The per-trial environment: the `SingleModelSimulation` object after
construction, plus oracles for the external collaborators.

* `propensity` is the external brand-side scoring function
  `evaluate_partnership_opportunity(...)['propensity_score']` (spec §1 treats
  decision-scoring as an out-of-scope pure function); it is keyed by the brand
  name and the current month (the market intelligence evolves monthly on its
  own numpy stream, which is separate from the `random` stream the engine
  consumes, and `evaluate_partnership_opportunity` does not read the
  construction-time random field `decision_speed`).
* `seedStream` maps a seed to the draw stream that `random.seed(seed)`
  produces for the global generator.
* `monthly_discount_rate` is the float value of
  `(1 + discount_rate) ** (1/12) - 1`, an irrational constant modelled as a
  rational oracle value. -/
structure Engine where
  config : SimulationConfig
  product_list : List Product
  brand_agents : List BrandAgent
  propensity : String → Nat → ℚ
  seedStream : Nat → Nat → ℚ
  monthly_discount_rate : ℚ

/-- `self.total_months = config.simulation_years * config.months_per_year`. -/
def totalMonths (e : Engine) : Nat :=
  e.config.simulation_years * e.config.months_per_year

/-- One market shock record of `_generate_market_shocks`. -/
structure MarketShock where
  month : ℤ
  shock_type : String
  duration : ℤ
  intensity : ℚ
deriving DecidableEq

/-- `random.choice(seq)`: one draw mapped onto an index of the sequence. -/
def pyChoiceStr (rng : Rng) (l : List String) : String × Rng :=
  let (d, rng) := rng.next
  (l.getD (min (l.length - 1) (pyInt (d * (l.length : ℚ))).toNat) "", rng)

/-- Stable insertion into a month-sorted shock list. -/
def insertByMonth (s : MarketShock) (l : List MarketShock) :
    List MarketShock :=
  match l with
  | [] => [s]
  | h :: t => if h.month ≤ s.month then h :: insertByMonth s t else s :: h :: t

/-- `shocks.sort(key=lambda x: x['month'])`. -/
def sortByMonth (l : List MarketShock) : List MarketShock :=
  l.foldl (fun acc s => insertByMonth s acc) []

/-- The body of the shock-generation loop: four draws per shock. -/
def shocksLoop (e : Engine) (n : Nat) (rng : Rng) :
    List MarketShock × Rng :=
  match n with
  | 0 => ([], rng)
  | n + 1 =>
      let (shock_month, rng) := pyRandint rng 6 ((totalMonths e : ℤ) - 12)
      let (shock_type, rng) := pyChoiceStr rng e.config.available_shocks
      let (duration, rng) := pyRandint rng 3 8
      let (intensity, rng) := pyUniform rng (2/5) (4/5)
      let (rest, rng) := shocksLoop e n rng
      ({ month := shock_month, shock_type := shock_type, duration := duration,
         intensity := intensity } :: rest, rng)

/-- `SingleModelSimulation._generate_market_shocks`: it reseeds the global
generator with the trial seed (restarting the stream from position 0) and
consumes one draw for the shock count plus four per shock; the stream
position it leaves behind is where the monthly loop starts drawing. -/
def generateMarketShocks (e : Engine) (seed : Nat) :
    List MarketShock × Rng :=
  let rng : Rng := { stream := e.seedStream seed, idx := 0 }
  let (n_shocks, rng) := pyRandint rng 0 e.config.max_shocks_per_simulation
  let (shocks, rng) := shocksLoop e n_shocks.toNat rng
  (sortByMonth shocks, rng)

/-- The mutable per-trial metrics of `run_single_simulation`. -/
structure TrialState where
  rng : Rng
  tracker : CapacityTracker
  active_partnerships : List PartnershipDeal
  blocked_brands : List String
  partnerships_formed : Nat
  partnerships_rejected_capacity : Nat
  partner_brands : List String
  monthly_revenues : List ℚ
  monthly_profits : List ℚ
  revenue_by_product : List (String × ℚ)
  profit_by_product : List (String × ℚ)
  monthly_capacity_utilization : List ℚ
  active_cobranded_count : Nat

/-- Python `set.add` on an insertion-ordered membership list. -/
def addSet (l : List String) (k : String) : List String :=
  if k ∈ l then l else l ++ [k]

/-- `l[i] += v` on a list of rationals. -/
def addAt (l : List ℚ) (i : Nat) (v : ℚ) : List ℚ :=
  l.set i (l.getD i 0 + v)

/-- Release all capacity committed for one deal's products. -/
def releaseDealCapacity (t : CapacityTracker) (p : PartnershipDeal) :
    CapacityTracker :=
  p.products.foldl (fun t pd => t.release_capacity pd.1 pd.2.units) t

/-- Commit every slice of an allocation result. -/
def commitAllocation (t : CapacityTracker) (alloc : List (String × ℤ)) :
    CapacityTracker :=
  alloc.foldl (fun t pu => t.commit_capacity pu.1 pu.2) t

/-- The renewal branch run for a deal whose `end_month` equals the current
month, directly after its capacity has been released: if the brand is not
blocked, a coin flip decides whether a renewal is attempted; an attempted
renewal calls the allocation policy on the post-release tracker and either
re-commits and appends a renewed deal, or blocks the brand; a brand that is
already blocked or whose coin flip fails is (re-)added to the blocked set. -/
def renewalStep (e : Engine) (month : Nat) (st : TrialState)
    (p : PartnershipDeal) : TrialState :=
  if p.brand_name ∈ st.blocked_brands then
    { st with blocked_brands := addSet st.blocked_brands p.brand_name }
  else
    let (d, rng) := st.rng.next
    let st := { st with rng := rng }
    if d < 1/2 then
      match e.brand_agents.find? (fun b => b.brand_name == p.brand_name) with
      | none => st
      | some renewing_brand =>
          let renewal_units := p.annual_units
          let ((allocated_units, new_product_allocation), rng) :=
            macron_capacity_allocation e.config e.product_list renewal_units
              p.model st.tracker renewing_brand st.rng
          let st := { st with rng := rng }
          if allocated_units > 0 then
            let tracker := commitAllocation st.tracker new_product_allocation
            let fin := dealFinancials e.product_list new_product_allocation
              p.model renewing_brand
            let (dmul, rng) := pyRandint st.rng 1 3
            let new_duration_months := dmul.toNat * 12
            let renewed : PartnershipDeal :=
              { brand_name := p.brand_name, model := p.model,
                start_month := month + 1,
                end_month := min (month + new_duration_months) (totalMonths e),
                products := fin.1, monthly_revenue := fin.2.1,
                monthly_profit := fin.2.2, segment := p.segment,
                annual_units := allocated_units }
            { st with
              rng := rng, tracker := tracker,
              active_partnerships := st.active_partnerships ++ [renewed] }
          else
            { st with blocked_brands := addSet st.blocked_brands p.brand_name }
    else
      { st with blocked_brands := addSet st.blocked_brands p.brand_name }

/-- The expiry scan of the monthly loop: a cursor walks the active list
(including renewals appended during the scan, as Python's `for ... in
enumerate(list)` does); an expiring deal first has its capacity released,
its index recorded for removal, and then goes through `renewalStep`.
`fuel` bounds the number of iterations: renewals appended in the final
month can themselves expire in the same scan, which has no a-priori bound. -/
def expiryLoop (e : Engine) (month : Nat) (fuel : Nat) (i : Nat)
    (st : TrialState) (toRemove : List Nat) : TrialState × List Nat :=
  match fuel with
  | 0 => (st, toRemove)
  | fuel + 1 =>
      match st.active_partnerships.get? i with
      | none => (st, toRemove)
      | some p =>
          if p.end_month == month then
            let st := { st with tracker := releaseDealCapacity st.tracker p }
            let toRemove := toRemove ++ [i]
            let st := renewalStep e month st p
            expiryLoop e month fuel (i + 1) st toRemove
          else expiryLoop e month fuel (i + 1) st toRemove

/-- `for i in reversed(partnerships_to_remove): active_partnerships.pop(i)`. -/
def removeIndices (l : List PartnershipDeal) (idxs : List Nat) :
    List PartnershipDeal :=
  idxs.reverse.foldl (fun l i => l.eraseIdx i) l

/-- The whole expiry/renewal phase of one month. -/
def expiryPhase (e : Engine) (month : Nat) (fuel : Nat) (st : TrialState) :
    TrialState :=
  let r := expiryLoop e month fuel 0 st []
  { r.1 with active_partnerships := removeIndices r.1.active_partnerships r.2 }

/-- Refresh `active_cobranded_count` (co-branded trials only). -/
def updateCobrandedCount (model : String) (month : Nat) (st : TrialState) :
    TrialState :=
  if model == "co-branded" then
    { st with active_cobranded_count :=
        (st.active_partnerships.filter (fun p =>
          decide (p.start_month ≤ month ∧ month ≤ p.end_month))).length }
  else st

/-- Macron's strategic-acceptance check for a proposal that was granted
capacity (the `macron_accepts` block of the monthly loop). -/
def strategicAcceptance (model : String) (brand : BrandAgent)
    (allocated_units : ℤ) (cobrandedCount : Nat) (rng : Rng) : Bool × Rng :=
  if model == "co-branded" then
    let primary_segment : ℤ := brand.segment_id.headD 3
    let (acc, rng) :=
      if primary_segment == 1 || primary_segment == 2 ||
          primary_segment == 3 then
        if cobrandedCount ≥ 20 then
          if brand.annual_revenue_millions < 100 then (false, rng)
          else
            let (d, rng) := rng.next
            (!(decide (d > 1/2)), rng)
        else (true, rng)
      else if primary_segment == 4 || primary_segment == 5 then
        if cobrandedCount ≥ 25 then
          if brand.market_leader_score < 3/5 then (false, rng)
          else
            let (d, rng) := rng.next
            (!(decide (d > 7/10)), rng)
        else (true, rng)
      else (true, rng)
    if !acc && allocated_units > 20000 then
      let (d, rng) := rng.next
      (decide (d < 7/10), rng)
    else (acc, rng)
  else (true, rng)

/-- Accumulator of the new-deal financial loop (which, unlike the renewal
loop, also updates the cumulative per-product revenue/profit tables using
the already-drawn deal duration). -/
structure NewDealAcc where
  deal_products : List (String × DealProduct)
  monthly_revenue : ℚ
  monthly_profit : ℚ
  total_annual_units : ℤ
  revenue_by_product : List (String × ℚ)
  profit_by_product : List (String × ℚ)

/-- One iteration of the new-deal financial loop (which, unlike the renewal
loop, also updates the cumulative per-product revenue/profit tables using
the already-drawn deal duration). -/
def newDealStep (products : List Product) (model : String)
    (brand : BrandAgent) (duration_months : Nat) (acc : NewDealAcc)
    (pu : String × ℤ) : NewDealAcc :=
  let price := calculate_pricing (productCost products pu.1) pu.2 model brand
  let variable_cost := productCost products pu.1
  let annual_revenue := price * (pu.2 : ℚ)
  let annual_cogp := variable_cost * (pu.2 : ℚ)
  let annual_profit := annual_revenue - annual_cogp
  { deal_products := acc.deal_products ++ [(pu.1,
      { units := pu.2, price := price, variable_cost := variable_cost,
        annual_revenue := annual_revenue, annual_cogp := annual_cogp,
        annual_profit := annual_profit })],
    monthly_revenue := acc.monthly_revenue + annual_revenue / 12,
    monthly_profit := acc.monthly_profit + annual_profit / 12,
    total_annual_units := acc.total_annual_units + pu.2,
    revenue_by_product := dictAdd acc.revenue_by_product pu.1
      (annual_revenue * ((duration_months : ℚ) / 12)),
    profit_by_product := dictAdd acc.profit_by_product pu.1
      (annual_profit * ((duration_months : ℚ) / 12)) }

/-- The financial loop of the new-deal branch. -/
def newDealLoop (products : List Product) (alloc : List (String × ℤ))
    (model : String) (brand : BrandAgent) (duration_months : Nat)
    (rev_by prof_by : List (String × ℚ)) : NewDealAcc :=
  alloc.foldl (newDealStep products model brand duration_months)
    { deal_products := [], monthly_revenue := 0, monthly_profit := 0,
      total_annual_units := 0, revenue_by_product := rev_by,
      profit_by_product := prof_by }

/-- The tail of an accepted proposal: commit the allocation, draw the deal
duration, run the new-deal financial loop and append the new deal. -/
def proposalCommit (e : Engine) (model : String) (month : Nat)
    (st : TrialState) (brand : BrandAgent)
    (product_allocation : List (String × ℤ)) : TrialState :=
  let tracker := commitAllocation st.tracker product_allocation
  let dur := pyRandint st.rng 1 3
  let st := { st with rng := dur.2 }
  let partnership_duration_months := dur.1.toNat * 12
  let r := newDealLoop e.product_list product_allocation model brand
    partnership_duration_months st.revenue_by_product st.profit_by_product
  let partnership : PartnershipDeal :=
    { brand_name := brand.brand_name, model := model,
      start_month := month,
      end_month := min (month + partnership_duration_months) (totalMonths e),
      products := r.deal_products,
      monthly_revenue := r.monthly_revenue,
      monthly_profit := r.monthly_profit,
      segment := brand.segment_id.headD 3,
      annual_units := r.total_annual_units }
  { st with
    tracker := tracker,
    partnerships_formed := st.partnerships_formed + 1,
    partner_brands := addSet st.partner_brands brand.brand_name,
    revenue_by_product := r.revenue_by_product,
    profit_by_product := r.profit_by_product,
    active_partnerships := st.active_partnerships ++ [partnership] }

/-- The part of a brand's proposal turn that follows the demand estimate:
Macron's allocation decision, the capacity-rejection counter, the strategic
acceptance check, and — on acceptance — `proposalCommit`. -/
def proposalAllocated (e : Engine) (model : String) (month : Nat)
    (st : TrialState) (brand : BrandAgent) (desired_units : ℤ) : TrialState :=
  let ares := macron_capacity_allocation e.config e.product_list desired_units
    model st.tracker brand st.rng
  let st := { st with rng := ares.2 }
  if ares.1.1 == 0 then
    { st with partnerships_rejected_capacity :=
        st.partnerships_rejected_capacity + 1 }
  else
    let sres := strategicAcceptance model brand ares.1.1
      st.active_cobranded_count st.rng
    let st := { st with rng := sres.2 }
    if sres.1 then proposalCommit e model month st brand ares.1.2
    else st

/-- One brand's turn in the proposal phase of one month. -/
def proposalStep (e : Engine) (model : String) (month : Nat)
    (st : TrialState) (brand : BrandAgent) : TrialState :=
  if brand.brand_name ∈ st.blocked_brands then st
  else if st.active_partnerships.any (fun p =>
      p.brand_name == brand.brand_name && decide (month ≤ p.end_month)) then st
  else
    let decision_frequency : ℤ := pyInt (3 / (brand.decision_speed + 1/10))
    if (month : ℤ) % decision_frequency == 0 then
      let propensity_score := e.propensity brand.brand_name month
      let adjusted_propensity : ℚ :=
        if model == "co-branded" then
          let c : ℚ := (st.active_cobranded_count : ℚ)
          let exclusivity_factor :=
            if brand.segment_id.any (fun s => s == 6 || s == 7) then
              max (1/2) (1 - c * (8/100))
            else if brand.segment_id.any (fun s => s == 4 || s == 5) then
              max (6/10) (1 - c * (5/100))
            else max (8/10) (1 - c * (2/100))
          propensity_score * exclusivity_factor
        else propensity_score
      let base_threshold : ℚ := 2/10
      let threshold := base_threshold * (3/2 - brand.risk_appetite)
      if adjusted_propensity > threshold then
        let acceptance_probability :=
          adjusted_propensity * (1/2 + brand.decision_speed * (1/2))
        let (d, rng) := st.rng.next
        let st := { st with rng := rng }
        if d < acceptance_probability then
          let (desired_units, rng) := calculate_brand_demand e.config brand
            model st.rng
          let st := { st with rng := rng }
          proposalAllocated e model month st brand desired_units
        else st
      else st
    else st

/-- Monthly revenue/profit accrual from all currently active deals. -/
def accrue (month : Nat) (st : TrialState) : TrialState :=
  st.active_partnerships.foldl
    (fun st p =>
      if p.start_month ≤ month ∧ month ≤ p.end_month then
        { st with
          monthly_revenues := addAt st.monthly_revenues (month - 1)
            p.monthly_revenue,
          monthly_profits := addAt st.monthly_profits (month - 1)
            p.monthly_profit }
      else st)
    st

/-- One iteration of the main monthly loop (the quarterly market update
evolves only the market oracle's own numpy stream, so it does not change
the trial state modelled here). -/
def monthStep (e : Engine) (model : String) (fuel : Nat) (month : Nat)
    (st : TrialState) : TrialState :=
  let st := expiryPhase e month fuel st
  let st := updateCobrandedCount model month st
  let st := e.brand_agents.foldl (proposalStep e model month) st
  let st := accrue month st
  { st with monthly_capacity_utilization :=
      st.monthly_capacity_utilization ++ [st.tracker.get_utilization] }

/-- Run the monthly loop from `month` for `remaining` months. -/
def runMonthsFrom (e : Engine) (model : String) (fuel : Nat) (month : Nat)
    (remaining : Nat) (st : TrialState) : TrialState :=
  match remaining with
  | 0 => st
  | r + 1 =>
      runMonthsFrom e model fuel (month + 1) r (monthStep e model fuel month st)

/-- The state a trial starts its monthly loop from: fresh capacity tracker,
empty metrics, and the random stream positioned where shock generation
left it. -/
def initialTrialState (e : Engine) (rng : Rng) : TrialState :=
  { rng := rng,
    tracker := CapacityTracker.initialize_annual_capacity e.product_list
      e.config.production_capacity,
    active_partnerships := [], blocked_brands := [],
    partnerships_formed := 0, partnerships_rejected_capacity := 0,
    partner_brands := [],
    monthly_revenues := List.replicate (totalMonths e) 0,
    monthly_profits := List.replicate (totalMonths e) 0,
    revenue_by_product := e.product_list.map (fun p => (p.name, 0)),
    profit_by_product := e.product_list.map (fun p => (p.name, 0)),
    monthly_capacity_utilization := [], active_cobranded_count := 0 }

/-- The Trial Outcome record. -/
structure TrialOutcome where
  simulation_id : Nat
  model : String
  total_revenue : ℚ
  total_profit : ℚ
  npv_revenue : ℚ
  npv_profit : ℚ
  partnerships_formed : Nat
  partnerships_rejected_capacity : Nat
  revenue_by_year : List ℚ
  profit_by_year : List ℚ
  revenue_by_product : List (String × ℚ)
  profit_by_product : List (String × ℚ)
  partner_brands : List String
  market_shocks : List MarketShock
  avg_capacity_utilization : ℚ
  max_capacity_utilization : ℚ
  final_capacity_utilization : ℚ
deriving DecidableEq

/-- `np.sum(values * discount_factors)` with
`discount_factors[i] = (1 + monthly_discount_rate) ** -i`. -/
def npvSum (l : List ℚ) (mdr : ℚ) : ℚ :=
  (l.enum.map (fun iv => iv.2 * (1 + mdr) ^ (-(iv.1 : ℤ)))).sum

/-- Sum of the 12-month slice of year `y` (numpy slicing clips). -/
def yearSlice (l : List ℚ) (y : Nat) : ℚ := ((l.drop (y * 12)).take 12).sum

/-- `np.max` over the utilization list (always nonempty in the program). -/
def listMax (l : List ℚ) : ℚ := l.foldl max (l.headD 0)

/-- `SingleModelSimulation.run_single_simulation`: one full trial.
`fuel` bounds the expiry scan (see `expiryLoop`). -/
def run_single_simulation (e : Engine) (simulation_id : Nat) (model : String)
    (fuel : Nat) : TrialOutcome :=
  let seed := e.config.base_seed + simulation_id
  let sh := generateMarketShocks e seed
  let st := runMonthsFrom e model fuel 1 (totalMonths e)
    (initialTrialState e sh.2)
  let total_revenue := st.monthly_revenues.sum
  let total_profit := st.monthly_profits.sum
  let npv_revenue := npvSum st.monthly_revenues e.monthly_discount_rate
  let npv_profit := npvSum st.monthly_profits e.monthly_discount_rate
  { simulation_id := simulation_id, model := model,
    total_revenue := total_revenue, total_profit := total_profit,
    npv_revenue := npv_revenue, npv_profit := npv_profit,
    partnerships_formed := st.partnerships_formed,
    partnerships_rejected_capacity := st.partnerships_rejected_capacity,
    revenue_by_year := (List.range e.config.simulation_years).map
      (fun y => yearSlice st.monthly_revenues y),
    profit_by_year := (List.range e.config.simulation_years).map
      (fun y => yearSlice st.monthly_profits y),
    revenue_by_product := st.revenue_by_product,
    profit_by_product := st.profit_by_product,
    partner_brands := st.partner_brands,
    market_shocks := sh.1,
    avg_capacity_utilization := st.monthly_capacity_utilization.sum /
      (st.monthly_capacity_utilization.length : ℚ),
    max_capacity_utilization := listMax st.monthly_capacity_utilization,
    final_capacity_utilization :=
      st.monthly_capacity_utilization.getLastD 0 }

/-- `df[c]` on a pandas DataFrame built from a list of records: a DataFrame
built from a nonempty record list has one column per record field; one built
from the empty list has no columns at all, so any column access raises
`KeyError`. -/
def dfColumn (rows : List TrialOutcome) (c : String)
    (sel : TrialOutcome → ℚ) : Except String (List ℚ) :=
  if rows.isEmpty then Except.error ("KeyError: " ++ c)
  else Except.ok (rows.map sel)

/-- Arithmetic mean of a column. -/
def listMean (l : List ℚ) : ℚ := l.sum / (l.length : ℚ)

/-- Stable insertion into a sorted list of rationals. -/
def insertRat (x : ℚ) (l : List ℚ) : List ℚ :=
  match l with
  | [] => [x]
  | h :: t => if h ≤ x then h :: insertRat x t else x :: h :: t

/-- Insertion sort on rationals. -/
def sortRat (l : List ℚ) : List ℚ := l.foldl (fun a x => insertRat x a) []

/-- pandas `Series.std()` (sample standard deviation, `ddof=1`); the square
root is irrational, so it is taken through the oracle `sq`. -/
def sampleStd (sq : ℚ → ℚ) (l : List ℚ) : ℚ :=
  sq (((l.map (fun x => (x - listMean l) ^ 2)).sum) / ((l.length : ℚ) - 1))

/-- pandas `Series.quantile(q)` with the default linear interpolation. -/
def quantileLinear (l : List ℚ) (q : ℚ) : ℚ :=
  let s := sortRat l
  let h : ℚ := q * ((s.length : ℚ) - 1)
  let lo := (pyInt h).toNat
  let frac := h - ((pyInt h : ℤ) : ℚ)
  s.getD lo 0 + frac * (s.getD (min (lo + 1) (s.length - 1)) 0 - s.getD lo 0)

/-- The per-model block of `analyze_results` (field names follow the
`analysis[model]` dict keys of the source). -/
structure ModelStats where
  mean_total_revenue : ℚ
  std_total_revenue : ℚ
  mean_total_profit : ℚ
  std_total_profit : ℚ
  mean_npv_profit : ℚ
  std_npv_profit : ℚ
  mean_partnerships : ℚ
  mean_rejected_capacity : ℚ
  avg_capacity_utilization : ℚ
  max_capacity_reached : ℚ
  revenue_percentiles : List (String × ℚ)
  profit_percentiles : List (String × ℚ)
deriving DecidableEq

/-- `analysis['comparison']` of the source: white-label over co-branded
quotients (`revenue_ratio`, `profit_ratio`, `npv_profit_ratio`,
`partnership_ratio`) and the utilization difference. -/
structure ModelComparison where
  wl_cb_revenue : ℚ
  wl_cb_profit : ℚ
  wl_cb_npv_profit : ℚ
  wl_cb_partnership : ℚ
  capacity_util_diff : ℚ
deriving DecidableEq

/-- `analysis['recommendation']` of the source. -/
structure Recommendation where
  chosen_model : String
  co_branded_score : ℚ
  white_label_score : ℚ
  score_difference_pct : ℚ
deriving DecidableEq

/-- The full `analyze_results` payload. -/
structure Analysis where
  co_branded : ModelStats
  white_label : ModelStats
  comparison : ModelComparison
  recommendation : Recommendation
deriving DecidableEq

/-- The per-model statistics dict of `analyze_results`; the dict literal is
evaluated in source order, so the very first expression evaluated is
`df['total_revenue'].mean()`, whose column access fails on an empty frame. -/
def modelStats (sq : ℚ → ℚ) (rows : List TrialOutcome) :
    Except String ModelStats := do
  let rev ← dfColumn rows "total_revenue" (fun r => r.total_revenue)
  let prof ← dfColumn rows "total_profit" (fun r => r.total_profit)
  let npv ← dfColumn rows "npv_profit" (fun r => r.npv_profit)
  let parts ← dfColumn rows "partnerships_formed"
    (fun r => (r.partnerships_formed : ℚ))
  let rejected ← dfColumn rows "partnerships_rejected_capacity"
    (fun r => (r.partnerships_rejected_capacity : ℚ))
  let avgu ← dfColumn rows "avg_capacity_utilization"
    (fun r => r.avg_capacity_utilization)
  let maxu ← dfColumn rows "max_capacity_utilization"
    (fun r => r.max_capacity_utilization)
  pure
    { mean_total_revenue := listMean rev,
      std_total_revenue := sampleStd sq rev,
      mean_total_profit := listMean prof,
      std_total_profit := sampleStd sq prof,
      mean_npv_profit := listMean npv,
      std_npv_profit := sampleStd sq npv,
      mean_partnerships := listMean parts,
      mean_rejected_capacity := listMean rejected,
      avg_capacity_utilization := listMean avgu,
      max_capacity_reached :=
        ((maxu.filter (fun x => decide (95 ≤ x))).length : ℚ) /
          (rows.length : ℚ) * 100,
      revenue_percentiles :=
        [("5%", quantileLinear rev (5/100)), ("25%", quantileLinear rev (25/100)),
         ("50%", quantileLinear rev (50/100)), ("75%", quantileLinear rev (75/100)),
         ("95%", quantileLinear rev (95/100))],
      profit_percentiles :=
        [("5%", quantileLinear prof (5/100)), ("25%", quantileLinear prof (25/100)),
         ("50%", quantileLinear prof (50/100)), ("75%", quantileLinear prof (75/100)),
         ("95%", quantileLinear prof (95/100))] }

/-- `SingleModelSimulation.analyze_results`: per-model statistics are built
first (`co-branded` is first in the results dict), then the comparison
quotients and the NPV-based recommendation. -/
def analyze_results (sq : ℚ → ℚ) (cb wl : List TrialOutcome) :
    Except String Analysis := do
  let scb ← modelStats sq cb
  let swl ← modelStats sq wl
  let comparison : ModelComparison :=
    { wl_cb_revenue := swl.mean_total_revenue / scb.mean_total_revenue,
      wl_cb_profit := swl.mean_total_profit / scb.mean_total_profit,
      wl_cb_npv_profit := swl.mean_npv_profit / scb.mean_npv_profit,
      wl_cb_partnership := swl.mean_partnerships / scb.mean_partnerships,
      capacity_util_diff :=
        swl.avg_capacity_utilization - scb.avg_capacity_utilization }
  let co_branded_score := scb.mean_npv_profit
  let white_label_score := swl.mean_npv_profit
  pure
    { co_branded := scb, white_label := swl, comparison := comparison,
      recommendation :=
        { chosen_model :=
            if co_branded_score > white_label_score then "co-branded"
            else "white-label",
          co_branded_score := co_branded_score,
          white_label_score := white_label_score,
          score_difference_pct :=
            |co_branded_score - white_label_score| /
              max co_branded_score white_label_score * 100 } }

/-- `SingleModelSimulation.run_simulation`, the Monte Carlo Driver: run
`n_simulations` trials per model variant (trial indices `0..n-1`, no
validation of `n_simulations` happens anywhere before the loop), then
aggregate with `analyze_results`. -/
def run_simulation_driver (e : Engine) (sq : ℚ → ℚ) (fuel : Nat) :
    Except String Analysis :=
  let cb := (List.range e.config.n_simulations).map
    (fun i => run_single_simulation e i "co-branded" fuel)
  let wl := (List.range e.config.n_simulations).map
    (fun i => run_single_simulation e i "white-label" fuel)
  analyze_results sq cb wl

/-! ### Concrete fixtures used by witnesses and counterexamples -/

/-- A single product of the loaded cost table (name matches the technical
substring pattern of `_allocate_products_to_brand`). -/
def prodHydro : Product :=
  { name := "Hydrotex Base", variable_cost := 10, complexity := "Medium" }

/-- A tiny trial configuration: one year of two months (the engine reads
`simulation_years * months_per_year`), everything else at source defaults. -/
def cfgSmall : SimulationConfig :=
  { n_simulations := 1, simulation_years := 1, months_per_year := 2,
    base_seed := 0 }

/-- A brand profile whose construction-time random field `decision_speed`
is left as a parameter; every loaded (non-random) field is fixed. -/
def brandAlpha (ds : ℚ) : BrandAgent :=
  { brand_name := "Alpha", annual_revenue_millions := 100,
    avg_price_index := 100, segment_id := [3], market_leader_score := 1/2,
    technical_capability := 1/2, sustainability_score := 1/2,
    risk_appetite := 1/2, decision_speed := ds }

/-- The engine of the determinism scenario: identical seed stream (all
draws `0`), identical propensity oracle, one product, one brand whose
`decision_speed` is the parameter. -/
def engAlpha (ds : ℚ) : Engine :=
  { config := cfgSmall, product_list := [prodHydro],
    brand_agents := [brandAlpha ds],
    propensity := fun _ _ => 9/10,
    seedStream := fun _ _ => 0,
    monthly_discount_rate := 0 }

/-- A small-revenue brand for the demand-clamp scenario. -/
def brandTiny : BrandAgent :=
  { brand_name := "Tiny", annual_revenue_millions := 1,
    avg_price_index := 100, segment_id := [3], market_leader_score := 1/2,
    technical_capability := 1/2, sustainability_score := 1/2,
    risk_appetite := 1/2, decision_speed := 1/2 }

/-- A random stream whose draws are all `1/2` (jitter exactly `1.0`). -/
def rngHalf : Rng := { stream := fun _ => 1/2, idx := 0 }

/-- A random stream whose draws are all `9/10` (the renewal coin flip
fails: `0.9 < 0.5` is false, so no renewal attempt is made). -/
def rngNine : Rng := { stream := fun _ => 9/10, idx := 0 }

/-- The default `SimulationConfig` (all source defaults, in particular
`min_units_per_product = 2000` and `max_units_per_product = 200000`). -/
def cfgDefault : SimulationConfig := {}

/-- A deal whose `end_month` is the current month of the expiry scenarios:
created in month 1 with a 12-month duration in a 24-month trial. -/
def dealBeta : PartnershipDeal :=
  { brand_name := "Beta", model := "white-label", start_month := 1,
    end_month := 13,
    products := [("Hydrotex Base",
      { units := 2000, price := 109/10, variable_cost := 10,
        annual_revenue := 21800, annual_cogp := 20000,
        annual_profit := 1800 })],
    monthly_revenue := 21800/12, monthly_profit := 150, segment := 3,
    annual_units := 2000 }

/-- A 24-month engine hosting the expiry scenarios. -/
def engExpiry : Engine :=
  { config := { cfgSmall with simulation_years := 2, months_per_year := 12 },
    product_list := [prodHydro],
    brand_agents := [brandAlpha (1/2)],
    propensity := fun _ _ => 0,
    seedStream := fun _ _ => 0,
    monthly_discount_rate := 0 }

/-- The trial state of the expiry scenarios: the deal `dealBeta` is active,
its units are committed, and the next draw is `9/10`. -/
def stBeta : TrialState :=
  { initialTrialState engExpiry rngNine with
    active_partnerships := [dealBeta],
    tracker := (CapacityTracker.initialize_annual_capacity [prodHydro]
      cfgDefault.production_capacity).commit_capacity "Hydrotex Base" 2000 }

/-- An engine with `n_simulations = 0` for the zero-trial driver scenario. -/
def engZero : Engine :=
  { config := { cfgSmall with n_simulations := 0, months_per_year := 1 },
    product_list := [prodHydro],
    brand_agents := [],
    propensity := fun _ _ => 0,
    seedStream := fun _ _ => 0,
    monthly_discount_rate := 0 }

/-- Equality of the statically loaded (non-random) fields of two
`BrandAgent`s: everything except the construction-time random fields
`risk_appetite` and `decision_speed`. -/
def sameLoadedFields (b1 b2 : BrandAgent) : Prop :=
  b1.brand_name = b2.brand_name ∧
  b1.annual_revenue_millions = b2.annual_revenue_millions ∧
  b1.avg_price_index = b2.avg_price_index ∧
  b1.segment_id = b2.segment_id ∧
  b1.market_leader_score = b2.market_leader_score ∧
  b1.technical_capability = b2.technical_capability ∧
  b1.sustainability_score = b2.sustainability_score

/-- A tracker (default capacity, one Medium product of annual capacity
400000) with 390000 units already committed: 10000 units are available, so
the 20% anti-monopolization cap is 2000 units. -/
def trackerC5 : CapacityTracker :=
  (CapacityTracker.initialize_annual_capacity [prodHydro]
    cfgDefault.production_capacity).commit_capacity "Hydrotex Base" 390000

/-- The capacity invariant (spec §3, Capacity Tracker): within a trial of
engine `e`, the tracker's annual capacities are exactly the ones computed at
trial start and every product's committed capacity stays inside
`[0, annual_capacity]`. -/
def TrackerInv (e : Engine) (t : CapacityTracker) : Prop :=
  t.annual_capacity = (CapacityTracker.initialize_annual_capacity
    e.product_list e.config.production_capacity).annual_capacity ∧
  ∀ name : String, 0 ≤ lookupD t.committed_capacity name 0 ∧
    lookupD t.committed_capacity name 0 ≤ lookupD t.annual_capacity name 0

/-- Every deal in the list reserves a nonnegative unit count per product. -/
def DealsOK (l : List PartnershipDeal) : Prop :=
  ∀ d ∈ l, ∀ pd ∈ d.products, 0 ≤ pd.2.units

/-- The inductive trial-state invariant behind the capacity invariant. -/
def StateInv (e : Engine) (st : TrialState) : Prop :=
  TrackerInv e st.tracker ∧ DealsOK st.active_partnerships

/-! ## Helper lemmas -/

theorem pyInt_nonneg {q : ℚ} (h : 0 ≤ q) : 0 ≤ pyInt q := by
  unfold pyInt
  rw [if_neg (not_lt.mpr h)]
  exact Int.floor_nonneg.mpr h

theorem pyInt_le_int {q : ℚ} {n : ℤ} (h0 : 0 ≤ q) (h : q ≤ (n : ℚ)) :
    pyInt q ≤ n := by
  unfold pyInt
  rw [if_neg (not_lt.mpr h0)]
  exact le_of_le_of_eq (Int.floor_le_floor h) (Int.floor_intCast n)

theorem pyInt_cast_le {q : ℚ} (h0 : 0 ≤ q) : (pyInt q : ℚ) ≤ q := by
  unfold pyInt
  rw [if_neg (not_lt.mpr h0)]
  exact Int.floor_le q

theorem clamp01_nonneg (q : ℚ) : 0 ≤ clamp01 q := le_max_left 0 _

theorem clamp01_le_one (q : ℚ) : clamp01 q ≤ 1 :=
  max_le (by norm_num) (min_le_left 1 q)

theorem next_fst_mem (r : Rng) : 0 ≤ r.next.1 ∧ r.next.1 ≤ 1 :=
  ⟨clamp01_nonneg _, clamp01_le_one _⟩

theorem pyUniform_fst_mem (r : Rng) {a b : ℚ} (h : a ≤ b) :
    a ≤ (pyUniform r a b).1 ∧ (pyUniform r a b).1 ≤ b := by
  unfold pyUniform
  constructor
  · have h1 : 0 ≤ (b - a) * r.next.1 :=
      mul_nonneg (by linarith) (next_fst_mem r).1
    simp only []
    linarith
  · have h2 : (b - a) * r.next.1 ≤ (b - a) * 1 :=
      mul_le_mul_of_nonneg_left (next_fst_mem r).2 (by linarith)
    simp only []
    linarith

theorem pyRandint_fst_mem (r : Rng) {a b : ℤ} (h : a ≤ b) :
    a ≤ (pyRandint r a b).1 ∧ (pyRandint r a b).1 ≤ b := by
  unfold pyRandint
  have hd := next_fst_mem r
  have hc : (0 : ℚ) ≤ (b : ℚ) - (a : ℚ) + 1 := by
    have : (a : ℚ) ≤ (b : ℚ) := by exact_mod_cast h
    linarith
  have ht : 0 ≤ pyInt (r.next.1 * ((b : ℚ) - (a : ℚ) + 1)) :=
    pyInt_nonneg (mul_nonneg hd.1 hc)
  constructor
  · simp only []
    have : 0 ≤ min (b - a) (pyInt (r.next.1 * ((b : ℚ) - (a : ℚ) + 1))) :=
      le_min (by omega) ht
    omega
  · simp only []
    have : min (b - a) (pyInt (r.next.1 * ((b : ℚ) - (a : ℚ) + 1))) ≤ b - a :=
      min_le_left _ _
    omega

/-! Dictionary lemmas.  All dictionaries in the engine use `String` or `ℤ`
keys, whose `BEq` instances are lawful. -/

theorem dictSet_cons_ne {κ α : Type} [BEq κ] (a : κ × α) (t : List (κ × α))
    (k : κ) (v : α) (h : (a.1 == k) = false) :
    dictSet (a :: t) k v = a :: dictSet t k v := by
  unfold dictSet
  cases ht : t.any (fun kv => kv.1 == k) with
  | true => simp [List.any_cons, h, ht]
  | false => simp [List.any_cons, h, ht]

theorem dictSet_cons_eq {κ α : Type} [BEq κ] (a : κ × α) (t : List (κ × α))
    (k : κ) (v : α) (h : (a.1 == k) = true) :
    dictSet (a :: t) k v =
      (k, v) :: t.map (fun kv => if kv.1 == k then (k, v) else kv) := by
  unfold dictSet
  simp [List.any_cons, h]

theorem lookupD_cons {κ α : Type} [BEq κ] (a : κ × α) (t : List (κ × α))
    (k : κ) (d : α) :
    lookupD (a :: t) k d = if (a.1 == k) = true then a.2 else lookupD t k d := by
  by_cases h : (a.1 == k) = true
  · unfold lookupD
    rw [if_pos h]
    simp only [List.find?]
    simp [h]
  · unfold lookupD
    rw [if_neg h]
    simp only [List.find?]
    simp only [Bool.not_eq_true] at h
    simp [h]

theorem lookupD_replaceAll_ne {κ α : Type} [BEq κ] [LawfulBEq κ]
    (t : List (κ × α)) (k k' : κ) (v : α) (d : α) (hne : k' ≠ k) :
    lookupD (t.map (fun kv => if kv.1 == k then (k, v) else kv)) k' d =
      lookupD t k' d := by
  induction t with
  | nil => simp
  | cons b s ih =>
      by_cases hb : (b.1 == k) = true
      · have hbk : b.1 = k := by simpa using hb
        simp only [List.map_cons, if_pos hb]
        rw [lookupD_cons, lookupD_cons]
        have h1 : (k == k') = false := by
          simp only [beq_eq_false_iff_ne, ne_eq]
          exact fun hh => hne hh.symm
        have h2 : (b.1 == k') = false := by rw [hbk]; exact h1
        simp only [h1, h2, Bool.false_eq_true, if_false]
        exact ih
      · have hb' : (b.1 == k) = false := by simpa using hb
        simp only [List.map_cons, if_neg (by simp [hb'] : ¬ (b.1 == k) = true)]
        rw [lookupD_cons, lookupD_cons]
        split
        · rfl
        · exact ih

theorem lookupD_dictSet_self {κ α : Type} [BEq κ] [LawfulBEq κ]
    (l : List (κ × α)) (k : κ) (v : α) (d : α) :
    lookupD (dictSet l k v) k d = v := by
  induction l with
  | nil =>
      unfold dictSet
      simp only [List.any_nil, Bool.false_eq_true, if_false, List.nil_append]
      rw [lookupD_cons]
      simp
  | cons a t ih =>
      by_cases h : (a.1 == k) = true
      · rw [dictSet_cons_eq a t k v h, lookupD_cons]
        simp
      · have h' : (a.1 == k) = false := by simpa using h
        rw [dictSet_cons_ne a t k v h', lookupD_cons]
        simp only [h', Bool.false_eq_true, if_false]
        exact ih

theorem lookupD_dictSet_ne {κ α : Type} [BEq κ] [LawfulBEq κ]
    (l : List (κ × α)) (k k' : κ) (v : α) (d : α) (hne : k' ≠ k) :
    lookupD (dictSet l k v) k' d = lookupD l k' d := by
  have h1 : (k == k') = false := by
    simp only [beq_eq_false_iff_ne, ne_eq]
    exact fun hh => hne hh.symm
  induction l with
  | nil =>
      unfold dictSet
      simp only [List.any_nil, Bool.false_eq_true, if_false, List.nil_append]
      rw [lookupD_cons]
      simp [lookupD, h1]
  | cons a t ih =>
      by_cases h : (a.1 == k) = true
      · have hk : a.1 = k := by simpa using h
        rw [dictSet_cons_eq a t k v h, lookupD_cons, lookupD_cons]
        have h2 : (a.1 == k') = false := by rw [hk]; exact h1
        simp only [h1, h2, Bool.false_eq_true, if_false]
        exact lookupD_replaceAll_ne t k k' v d hne
      · have h' : (a.1 == k) = false := by simpa using h
        rw [dictSet_cons_ne a t k v h', lookupD_cons, lookupD_cons]
        split
        · rfl
        · exact ih

theorem sumValues_nil {κ : Type} : sumValues ([] : List (κ × ℤ)) = 0 := rfl

theorem sumValues_cons {κ : Type} (a : κ × ℤ) (l : List (κ × ℤ)) :
    sumValues (a :: l) = a.2 + sumValues l := by
  simp [sumValues]

theorem sumValues_nonneg {κ : Type} {l : List (κ × ℤ)}
    (h : ∀ pu ∈ l, 0 ≤ pu.2) : 0 ≤ sumValues l := by
  induction l with
  | nil => simp [sumValues]
  | cons a t ih =>
      rw [sumValues_cons]
      have h1 := h a (by simp)
      have h2 := ih (fun pu hpu => h pu (by simp [hpu]))
      omega

theorem replaceAll_eq_self {κ α : Type} [BEq κ] (t : List (κ × α)) (k : κ)
    (v : α) (h : ∀ b ∈ t, (b.1 == k) = false) :
    t.map (fun kv => if kv.1 == k then (k, v) else kv) = t := by
  induction t with
  | nil => simp
  | cons b s ih =>
      simp only [List.map_cons]
      rw [if_neg (by simp [h b (by simp)]), ih (fun x hx => h x (by simp [hx]))]

theorem mem_dictSet {κ α : Type} [BEq κ] {l : List (κ × α)} {k : κ} {v : α}
    {pu : κ × α} (h : pu ∈ dictSet l k v) : pu ∈ l ∨ pu = (k, v) := by
  unfold dictSet at h
  split at h
  · rcases List.mem_map.mp h with ⟨b, hb, hfb⟩
    by_cases hbk : (b.1 == k) = true
    · right
      rw [if_pos hbk] at hfb
      exact hfb.symm
    · left
      rw [if_neg hbk] at hfb
      exact hfb ▸ hb
  · rcases List.mem_append.mp h with hl | hr
    · exact Or.inl hl
    · right
      simpa using hr

theorem keys_dictSet_nodup {κ α : Type} [BEq κ] [LawfulBEq κ]
    {l : List (κ × α)} (k : κ) (v : α)
    (hnd : (l.map Prod.fst).Nodup) :
    ((dictSet l k v).map Prod.fst).Nodup := by
  unfold dictSet
  split
  · next hany =>
      have : (l.map (fun kv => if kv.1 == k then (k, v) else kv)).map Prod.fst
          = l.map Prod.fst := by
        rw [List.map_map]
        apply List.map_congr_left
        intro a _
        by_cases hh : (a.1 == k) = true
        · simp only [Function.comp_apply, if_pos hh]
          have : a.1 = k := by simpa using hh
          simp [this]
        · simp [Function.comp_apply, if_neg hh]
      rw [this]
      exact hnd
  · next hany =>
      have hk : k ∉ l.map Prod.fst := by
        intro hmem
        rcases List.mem_map.mp hmem with ⟨b, hb, hfb⟩
        have : l.any (fun kv => kv.1 == k) = true :=
          List.any_eq_true.mpr ⟨b, hb, by simp [hfb]⟩
        exact hany this
      rw [List.map_append]
      simp only [List.map_cons, List.map_nil]
      refine List.Nodup.append hnd (List.nodup_singleton k) ?_
      intro a ha hb
      have haEq : a = k := by simpa using hb
      exact hk (haEq ▸ ha)

theorem sumValues_dictSet_le {l : List (String × ℤ)} (k : String) (v : ℤ)
    (hvals : ∀ pu ∈ l, 0 ≤ pu.2) (hnd : (l.map Prod.fst).Nodup) :
    sumValues (dictSet l k v) ≤ v + sumValues l := by
  induction l with
  | nil =>
      unfold dictSet
      simp [sumValues]
  | cons a t ih =>
      by_cases h : (a.1 == k) = true
      · have hk : a.1 = k := by simpa using h
        rw [dictSet_cons_eq a t k v h, sumValues_cons]
        have hnd2 : a.1 ∉ t.map Prod.fst ∧ (t.map Prod.fst).Nodup := by
          rw [List.map_cons, List.nodup_cons] at hnd
          exact hnd
        have htail : ∀ b ∈ t, (b.1 == k) = false := by
          intro b hb
          have hb1 : b.1 ≠ a.1 := by
            intro hEq
            exact hnd2.1 (hEq ▸ List.mem_map_of_mem Prod.fst hb)
          simp [hk ▸ hb1]
        rw [replaceAll_eq_self t k v htail]
        have ha2 : 0 ≤ a.2 := hvals a (by simp)
        rw [sumValues_cons]
        omega
      · have h' : (a.1 == k) = false := by simpa using h
        rw [dictSet_cons_ne a t k v h', sumValues_cons, sumValues_cons]
        have hnd2 : a.1 ∉ t.map Prod.fst ∧ (t.map Prod.fst).Nodup := by
          rw [List.map_cons, List.nodup_cons] at hnd
          exact hnd
        have := ih (fun pu hpu => hvals pu (by simp [hpu])) hnd2.2
        omega

theorem distributeUnits_spec (sel : List String) :
    ∀ (remaining : ℤ) (alloc : List (String × ℤ)) (rng : Rng),
    0 ≤ remaining → (∀ pu ∈ alloc, 0 ≤ pu.2) →
    ((alloc.map Prod.fst).Nodup) →
    (∀ pu ∈ (distributeUnits sel remaining alloc rng).1, 0 ≤ pu.2) ∧
    (((distributeUnits sel remaining alloc rng).1.map Prod.fst).Nodup) ∧
    sumValues (distributeUnits sel remaining alloc rng).1 ≤
      remaining + sumValues alloc := by
  induction sel with
  | nil =>
      intro remaining alloc rng hrem hvals hnd
      refine ⟨?_, ?_, ?_⟩
      · simpa [distributeUnits] using hvals
      · simpa [distributeUnits] using hnd
      · simp only [distributeUnits]
        omega
  | cons p rest ih =>
      intro remaining alloc rng hrem hvals hnd
      cases rest with
      | nil =>
          simp only [distributeUnits]
          refine ⟨?_, ?_, ?_⟩
          · intro pu hpu
            rcases mem_dictSet hpu with hmem | hEq
            · exact hvals pu hmem
            · rw [hEq]
              exact hrem
          · exact keys_dictSet_nodup p remaining hnd
          · exact sumValues_dictSet_le p remaining hvals hnd
      | cons q more =>
          simp only [distributeUnits]
          have hu := pyUniform_fst_mem rng (a := (1:ℚ)/5) (b := (1:ℚ)/2)
            (by norm_num)
          set u := (pyUniform rng (1/5) (1/2)).1 with hud
          have hru : 0 ≤ (remaining : ℚ) * u :=
            mul_nonneg (by exact_mod_cast hrem) (le_trans (by norm_num) hu.1)
          have hunits0 : 0 ≤ pyInt ((remaining : ℚ) * u) := pyInt_nonneg hru
          have hcast : (0:ℚ) ≤ (remaining : ℚ) := by exact_mod_cast hrem
          have hunitsr : pyInt ((remaining : ℚ) * u) ≤ remaining := by
            refine pyInt_le_int hru ?_
            nlinarith [hu.1, hu.2]
          set units := pyInt ((remaining : ℚ) * u) with hun
          have h1 : ∀ pu ∈ dictSet alloc p units, 0 ≤ pu.2 := by
            intro pu hpu
            rcases mem_dictSet hpu with hmem | hEq
            · exact hvals pu hmem
            · rw [hEq]
              exact hunits0
          have h2 := keys_dictSet_nodup (l := alloc) p units hnd
          have h3 := ih (remaining - units) (dictSet alloc p units)
            (pyUniform rng (1/5) (1/2)).2 (by omega) h1 h2
          refine ⟨h3.1, h3.2.1, ?_⟩
          have h4 := sumValues_dictSet_le p units hvals hnd
          have h5 := h3.2.2
          omega

theorem keys_filterMap_sub {g : (String × ℤ) → Option (String × ℤ)}
    (hg : ∀ pu qu, g pu = some qu → qu.1 = pu.1) (pa : List (String × ℤ)) :
    ∀ key ∈ (pa.filterMap g).map Prod.fst, key ∈ pa.map Prod.fst := by
  intro key hkey
  rcases List.mem_map.mp hkey with ⟨qu, hqu, hq1⟩
  rcases List.mem_filterMap.mp hqu with ⟨orig, hmem, heq⟩
  have : qu.1 = orig.1 := hg orig qu heq
  exact List.mem_map.mpr ⟨orig, hmem, by rw [← hq1, this]⟩

theorem keys_filterMap_nodup {g : (String × ℤ) → Option (String × ℤ)}
    (hg : ∀ pu qu, g pu = some qu → qu.1 = pu.1) (pa : List (String × ℤ))
    (hnd : (pa.map Prod.fst).Nodup) :
    ((pa.filterMap g).map Prod.fst).Nodup := by
  induction pa with
  | nil => simp
  | cons a t ih =>
      have hnd2 : a.1 ∉ t.map Prod.fst ∧ (t.map Prod.fst).Nodup := by
        rw [List.map_cons, List.nodup_cons] at hnd
        exact hnd
      rw [List.filterMap_cons]
      cases hga : g a with
      | none => exact ih hnd2.2
      | some qu =>
          rw [List.map_cons, List.nodup_cons]
          refine ⟨?_, ih hnd2.2⟩
          intro hmem
          have h1 : qu.1 = a.1 := hg a qu hga
          exact hnd2.1 (h1 ▸ keys_filterMap_sub hg t qu.1 hmem)

theorem clipFilter_entries (pa av : List (String × ℤ))
    (hvals : ∀ pu ∈ pa, 0 ≤ pu.2) :
    ∀ pu ∈ pa.filterMap (fun pu =>
      let avail := lookupD av pu.1 0
      if avail ≥ pu.2 then some pu
      else if avail ≥ 1000 then some (pu.1, avail) else none),
      0 ≤ pu.2 ∧ pu.2 ≤ lookupD av pu.1 0 := by
  intro pu hpu
  rcases List.mem_filterMap.mp hpu with ⟨orig, hmem, heq⟩
  simp only [] at heq
  split_ifs at heq with h1 h2
  · have : orig = pu := by simpa using heq
    subst this
    exact ⟨hvals orig hmem, h1⟩
  · have : (orig.1, lookupD av orig.1 0) = pu := by simpa using heq
    rw [← this]
    exact ⟨by omega, by simp⟩

theorem clipFilter_sum_le (pa av : List (String × ℤ))
    (hvals : ∀ pu ∈ pa, 0 ≤ pu.2) :
    sumValues (pa.filterMap (fun pu =>
      let avail := lookupD av pu.1 0
      if avail ≥ pu.2 then some pu
      else if avail ≥ 1000 then some (pu.1, avail) else none)) ≤
      sumValues pa := by
  induction pa with
  | nil => simp [sumValues]
  | cons a t ih =>
      have ha := hvals a (by simp)
      have ih2 := ih (fun pu hpu => hvals pu (by simp [hpu]))
      rw [List.filterMap_cons, sumValues_cons]
      split
      · next heq =>
          omega
      · next qu heq =>
          simp only [] at heq
          rw [sumValues_cons]
          split_ifs at heq with h1 h2
          · have : a = qu := by simpa using heq
            subst this
            omega
          · have : (a.1, lookupD av a.1 0) = qu := by simpa using heq
            have hq2 : qu.2 = lookupD av a.1 0 := by rw [← this]
            omega

theorem allocate_products_spec (products : List Product)
    (brand : BrandAgent) (total_units : ℤ) (rng : Rng)
    (htotal : 0 ≤ total_units) :
    (∀ pu ∈ (allocate_products_to_brand products brand total_units rng).1,
      0 ≤ pu.2) ∧
    (((allocate_products_to_brand products brand total_units
      rng).1.map Prod.fst).Nodup) ∧
    sumValues (allocate_products_to_brand products brand total_units rng).1 ≤
      total_units := by
  unfold allocate_products_to_brand
  have h := distributeUnits_spec
    (pyChoices (pyRandint rng 1 (min 4 (products.length : ℤ))).2
      (products.map (fun p => (p.name, productWeight brand p)))
      (pyRandint rng 1 (min 4 (products.length : ℤ))).1.toNat).1
    total_units []
    (pyChoices (pyRandint rng 1 (min 4 (products.length : ℤ))).2
      (products.map (fun p => (p.name, productWeight brand p)))
      (pyRandint rng 1 (min 4 (products.length : ℤ))).1.toNat).2
    htotal (by simp) (by simp)
  rw [sumValues_nil, add_zero] at h
  exact ⟨h.1, h.2.1, h.2.2⟩

set_option maxHeartbeats 1000000 in
theorem macron_allocation_spec (cfg : SimulationConfig)
    (products : List Product) (desired_units : ℤ) (model : String)
    (tracker : CapacityTracker) (brand : BrandAgent) (rng : Rng) :
    (macron_capacity_allocation cfg products desired_units model tracker
        brand rng).1.1 =
      sumValues (macron_capacity_allocation cfg products desired_units model
        tracker brand rng).1.2 ∧
    (∀ pu ∈ (macron_capacity_allocation cfg products desired_units model
        tracker brand rng).1.2,
      0 ≤ pu.2 ∧
        pu.2 ≤ lookupD (productAvailability cfg products tracker) pu.1 0) ∧
    (((macron_capacity_allocation cfg products desired_units model tracker
        brand rng).1.2.map Prod.fst).Nodup) ∧
    (priorityScore brand model ≤ 3/2 →
      0 ≤ sumValues (productAvailability cfg products tracker) →
      ((macron_capacity_allocation cfg products desired_units model tracker
        brand rng).1.1 : ℚ) ≤
        (sumValues (productAvailability cfg products tracker) : ℚ) * (2/10)) := by
  unfold macron_capacity_allocation
  set avail := productAvailability cfg products tracker with havail
  simp only []
  split
  · next h0 =>
      refine ⟨by simp [sumValues], by simp, by simp, ?_⟩
      intro _ htot
      simp only [Int.cast_zero]
      positivity
  · next h0 =>
      set AU0 : ℤ := min (min desired_units
        (pyInt ((sumValues avail : ℚ) * (2 / 10))))
        (if model == "co-branded" then 50000 else 100000) with hAU0
      set AU : ℤ := if priorityScore brand model > 3 / 2 then
        pyInt ((AU0 : ℚ) * min (priorityScore brand model) (13 / 10))
        else AU0 with hAU
      split
      · next hsmall =>
          refine ⟨by simp [sumValues], by simp, by simp, ?_⟩
          intro _ htot
          simp only [Int.cast_zero]
          positivity
      · next hsmall =>
          have hAUpos : (1000 : ℤ) ≤ AU := by omega
          have hall := allocate_products_spec products brand AU rng (by omega)
          set pa : List (String × ℤ) :=
            (allocate_products_to_brand products brand AU rng).1 with hpa
          have hclipE := clipFilter_entries pa avail hall.1
          have hclipS := clipFilter_sum_le pa avail hall.1
          have hclipN := keys_filterMap_nodup (g := (fun pu =>
            let a := lookupD avail pu.1 0
            if a ≥ pu.2 then some pu
            else if a ≥ 1000 then some (pu.1, a) else none))
            (by
              intro pu qu heq
              simp only [] at heq
              split_ifs at heq
              · have : pu = qu := by simpa using heq
                rw [this]
              · have : (pu.1, lookupD avail pu.1 0) = qu := by simpa using heq
                rw [← this]) pa hall.2.1
          split
          · next htiny =>
              refine ⟨by simp [sumValues], by simp, by simp, ?_⟩
              intro _ htot
              simp only [Int.cast_zero]
              positivity
          · next htiny =>
              refine ⟨rfl, hclipE, hclipN, ?_⟩
              intro hp htot
              have hboost : AU = AU0 := by
                rw [hAU, if_neg (not_lt.mpr hp)]
              have hsum : sumValues (pa.filterMap (fun pu =>
                  let a := lookupD avail pu.1 0
                  if a ≥ pu.2 then some pu
                  else if a ≥ 1000 then some (pu.1, a) else none)) ≤ AU :=
                le_trans hclipS hall.2.2
              have hcap : AU ≤ pyInt ((sumValues avail : ℚ) * (2 / 10)) := by
                rw [hboost, hAU0]
                omega
              have htotQ : (0:ℚ) ≤ (sumValues avail : ℚ) * (2/10) := by
                have : (0:ℚ) ≤ (sumValues avail : ℚ) := by exact_mod_cast htot
                positivity
              have hflo : (pyInt ((sumValues avail : ℚ) * (2 / 10)) : ℚ) ≤
                  (sumValues avail : ℚ) * (2/10) := pyInt_cast_le htotQ
              have hfin : sumValues (pa.filterMap (fun pu =>
                  let a := lookupD avail pu.1 0
                  if a ≥ pu.2 then some pu
                  else if a ≥ 1000 then some (pu.1, a) else none)) ≤
                  pyInt ((sumValues avail : ℚ) * (2 / 10)) := le_trans hsum hcap
              calc (sumValues (pa.filterMap (fun pu =>
                  let a := lookupD avail pu.1 0
                  if a ≥ pu.2 then some pu
                  else if a ≥ 1000 then some (pu.1, a) else none)) : ℚ)
                  ≤ (pyInt ((sumValues avail : ℚ) * (2 / 10)) : ℚ) := by
                    exact_mod_cast hfin
                _ ≤ (sumValues avail : ℚ) * (2/10) := hflo

theorem lookupD_map_zero (products : List Product) (name : String) :
    lookupD (products.map (fun p => (p.name, (0 : ℤ)))) name 0 = 0 := by
  induction products with
  | nil => rfl
  | cons p t ih =>
      rw [List.map_cons, lookupD_cons]
      split
      · rfl
      · exact ih

theorem avail_lookup_aux (products : List Product) (capf : Product → ℤ)
    (com : List (String × ℤ)) (name : String) :
    lookupD (products.map (fun p => (p.name, capf p - lookupD com p.name 0)))
        name 0 =
      lookupD (products.map (fun p => (p.name, capf p))) name 0 -
        lookupD com name 0 ∨
    (lookupD (products.map (fun p => (p.name, capf p - lookupD com p.name 0)))
        name 0 = 0 ∧
      lookupD (products.map (fun p => (p.name, capf p))) name 0 = 0) := by
  induction products with
  | nil => exact Or.inr ⟨rfl, rfl⟩
  | cons p t ih =>
      rw [List.map_cons, List.map_cons, lookupD_cons, lookupD_cons]
      by_cases h : (p.name == name) = true
      · have hpn : p.name = name := by simpa using h
        rw [if_pos h, if_pos h]
        subst hpn
        exact Or.inl rfl
      · have h' : (p.name == name) = false := by simpa using h
        rw [if_neg (by simp [h']), if_neg (by simp [h'])]
        exact ih

theorem commit_capacity_annual (t : CapacityTracker) (p : String) (u : ℤ) :
    (t.commit_capacity p u).annual_capacity = t.annual_capacity := rfl

theorem commit_capacity_committed (t : CapacityTracker) (p : String) (u : ℤ) :
    (t.commit_capacity p u).committed_capacity =
      dictSet t.committed_capacity p
        (lookupD t.committed_capacity p 0 + u) := rfl

theorem release_capacity_committed (t : CapacityTracker) (p : String)
    (u : ℤ) :
    (t.release_capacity p u).committed_capacity =
      dictSet t.committed_capacity p
        (max 0 (lookupD t.committed_capacity p 0 - u)) := rfl

theorem release_capacity_annual (t : CapacityTracker) (p : String) (u : ℤ) :
    (t.release_capacity p u).annual_capacity = t.annual_capacity := rfl

theorem commitAllocation_annual (t : CapacityTracker)
    (alloc : List (String × ℤ)) :
    (commitAllocation t alloc).annual_capacity = t.annual_capacity := by
  induction alloc generalizing t with
  | nil => rfl
  | cons a rest ih =>
      unfold commitAllocation
      rw [List.foldl_cons]
      exact ih (t.commit_capacity a.1 a.2)

theorem releaseDealCapacity_annual (t : CapacityTracker)
    (p : PartnershipDeal) :
    (releaseDealCapacity t p).annual_capacity = t.annual_capacity := by
  unfold releaseDealCapacity
  generalize p.products = l
  induction l generalizing t with
  | nil => rfl
  | cons a rest ih =>
      rw [List.foldl_cons]
      exact ih (t.release_capacity a.1 a.2.units)

theorem commitAllocation_inv (t : CapacityTracker)
    (alloc : List (String × ℤ))
    (hvals : ∀ pu ∈ alloc, 0 ≤ pu.2)
    (hbound : ∀ pu ∈ alloc,
      lookupD t.committed_capacity pu.1 0 + pu.2 ≤
        lookupD t.annual_capacity pu.1 0 ∨ pu.2 = 0)
    (hnd : (alloc.map Prod.fst).Nodup)
    (hinv : ∀ name : String, 0 ≤ lookupD t.committed_capacity name 0 ∧
      lookupD t.committed_capacity name 0 ≤ lookupD t.annual_capacity name 0) :
    ∀ name : String,
      0 ≤ lookupD (commitAllocation t alloc).committed_capacity name 0 ∧
      lookupD (commitAllocation t alloc).committed_capacity name 0 ≤
        lookupD (commitAllocation t alloc).annual_capacity name 0 := by
  induction alloc generalizing t with
  | nil => intro name; exact hinv name
  | cons a rest ih =>
      have ha := hvals a (by simp)
      have hb := hbound a (by simp)
      have hnd2 : a.1 ∉ rest.map Prod.fst ∧ (rest.map Prod.fst).Nodup := by
        rw [List.map_cons, List.nodup_cons] at hnd
        exact hnd
      unfold commitAllocation
      rw [List.foldl_cons]
      have hstep : ∀ name : String,
          0 ≤ lookupD (t.commit_capacity a.1 a.2).committed_capacity name 0 ∧
          lookupD (t.commit_capacity a.1 a.2).committed_capacity name 0 ≤
            lookupD (t.commit_capacity a.1 a.2).annual_capacity name 0 := by
        intro name
        rw [commit_capacity_annual, commit_capacity_committed]
        by_cases hn : name = a.1
        · subst hn
          rw [lookupD_dictSet_self]
          have := hinv a.1
          constructor
          · omega
          · rcases hb with hb | hb
            · exact hb
            · omega
        · rw [lookupD_dictSet_ne _ _ _ _ _ hn]
          exact hinv name
      have hrest : ∀ pu ∈ rest,
          lookupD (t.commit_capacity a.1 a.2).committed_capacity pu.1 0 + pu.2 ≤
            lookupD (t.commit_capacity a.1 a.2).annual_capacity pu.1 0 ∨
            pu.2 = 0 := by
        intro pu hpu
        have hne : pu.1 ≠ a.1 := by
          intro hEq
          exact hnd2.1 (hEq ▸ List.mem_map_of_mem Prod.fst hpu)
        rw [commit_capacity_annual, commit_capacity_committed,
          lookupD_dictSet_ne _ _ _ _ _ hne]
        exact hbound pu (by simp [hpu])
      exact ih (t.commit_capacity a.1 a.2)
        (fun pu hpu => hvals pu (by simp [hpu])) hrest hnd2.2 hstep

theorem releaseList_inv (l : List (String × DealProduct)) (t : CapacityTracker)
    (hunits : ∀ pd ∈ l, 0 ≤ pd.2.units)
    (hinv : ∀ name : String, 0 ≤ lookupD t.committed_capacity name 0 ∧
      lookupD t.committed_capacity name 0 ≤ lookupD t.annual_capacity name 0) :
    ∀ name : String,
      0 ≤ lookupD (l.foldl (fun t pd =>
        t.release_capacity pd.1 pd.2.units) t).committed_capacity name 0 ∧
      lookupD (l.foldl (fun t pd =>
        t.release_capacity pd.1 pd.2.units) t).committed_capacity name 0 ≤
      lookupD (l.foldl (fun t pd =>
        t.release_capacity pd.1 pd.2.units) t).annual_capacity name 0 := by
  induction l generalizing t with
  | nil => intro name; exact hinv name
  | cons a rest ih =>
      rw [List.foldl_cons]
      have ha := hunits a (by simp)
      have hstep : ∀ name : String,
          0 ≤ lookupD (t.release_capacity a.1
            a.2.units).committed_capacity name 0 ∧
          lookupD (t.release_capacity a.1
            a.2.units).committed_capacity name 0 ≤
          lookupD (t.release_capacity a.1
            a.2.units).annual_capacity name 0 := by
        intro name
        rw [release_capacity_annual, release_capacity_committed]
        by_cases hn : name = a.1
        · subst hn
          rw [lookupD_dictSet_self]
          have := hinv a.1
          constructor
          · omega
          · omega
        · rw [lookupD_dictSet_ne _ _ _ _ _ hn]
          exact hinv name
      exact ih (t.release_capacity a.1 a.2.units)
        (fun pd hpd => hunits pd (List.mem_cons_of_mem a hpd)) hstep

theorem releaseDealCapacity_inv (t : CapacityTracker) (p : PartnershipDeal)
    (hunits : ∀ pd ∈ p.products, 0 ≤ pd.2.units)
    (hinv : ∀ name : String, 0 ≤ lookupD t.committed_capacity name 0 ∧
      lookupD t.committed_capacity name 0 ≤ lookupD t.annual_capacity name 0) :
    ∀ name : String,
      0 ≤ lookupD (releaseDealCapacity t p).committed_capacity name 0 ∧
      lookupD (releaseDealCapacity t p).committed_capacity name 0 ≤
        lookupD (releaseDealCapacity t p).annual_capacity name 0 :=
  releaseList_inv p.products t hunits hinv

theorem initialize_annual_eq (products : List Product)
    (pc : ProductionCapacity) :
    (CapacityTracker.initialize_annual_capacity products pc).annual_capacity =
      products.map (fun p => (p.name, pc.get_product_capacity p.complexity)) :=
  rfl

theorem commit_alloc_result_inv (e : Engine) (t : CapacityTracker)
    (desired : ℤ) (model_of : String) (brand : BrandAgent) (rng : Rng)
    (hTI : TrackerInv e t) :
    TrackerInv e (commitAllocation t
      (macron_capacity_allocation e.config e.product_list desired model_of t
        brand rng).1.2) := by
  obtain ⟨hann, hinv⟩ := hTI
  have spec := macron_allocation_spec e.config e.product_list desired model_of
    t brand rng
  have hbound : ∀ pu ∈ (macron_capacity_allocation e.config e.product_list
      desired model_of t brand rng).1.2,
      lookupD t.committed_capacity pu.1 0 + pu.2 ≤
        lookupD t.annual_capacity pu.1 0 ∨ pu.2 = 0 := by
    intro pu hpu
    have hb := spec.2.1 pu hpu
    have haux := avail_lookup_aux e.product_list
      (fun p => e.config.production_capacity.get_product_capacity p.complexity)
      t.committed_capacity pu.1
    have hPA : productAvailability e.config e.product_list t =
        e.product_list.map (fun p => (p.name,
          e.config.production_capacity.get_product_capacity p.complexity -
            lookupD t.committed_capacity p.name 0)) := rfl
    rw [hPA] at hb
    rw [hann, initialize_annual_eq]
    rcases haux with haux | haux
    · left
      rw [haux] at hb
      omega
    · right
      rw [haux.1] at hb
      omega
  have hfin := commitAllocation_inv t
    (macron_capacity_allocation e.config e.product_list desired model_of t
      brand rng).1.2
    (fun pu hpu => (spec.2.1 pu hpu).1) hbound spec.2.2.1 hinv
  refine ⟨?_, hfin⟩
  rw [commitAllocation_annual]
  exact hann

theorem productCost_nonneg (products : List Product) (name : String)
    (hcost : ∀ p ∈ products, 0 ≤ p.variable_cost) :
    0 ≤ productCost products name := by
  unfold productCost
  induction products with
  | nil => simp [lookupD]
  | cons p t ih =>
      rw [List.map_cons, lookupD_cons]
      split
      · exact hcost p (by simp)
      · exact ih (fun q hq => hcost q (List.mem_cons_of_mem p hq))

theorem dealFinancials_aux (products : List Product)
    (alloc : List (String × ℤ)) (model_of : String) (brand : BrandAgent)
    (hvals : ∀ pu ∈ alloc, 0 ≤ pu.2)
    (hcost : ∀ p ∈ products, 0 ≤ p.variable_cost) :
    ∀ acc : List (String × DealProduct) × ℚ × ℚ,
      (∀ pd ∈ acc.1, 0 ≤ pd.2.units) → acc.2.2 ≤ acc.2.1 →
      (∀ pd ∈ (alloc.foldl (dealFinStep products model_of brand) acc).1,
        0 ≤ pd.2.units) ∧
      (alloc.foldl (dealFinStep products model_of brand) acc).2.2 ≤
        (alloc.foldl (dealFinStep products model_of brand) acc).2.1 := by
  induction alloc with
  | nil =>
      intro acc h1 h2
      exact ⟨h1, h2⟩
  | cons a rest ih =>
      intro acc h1 h2
      rw [List.foldl_cons]
      have ha := hvals a (by simp)
      have hvc : 0 ≤ productCost products a.1 :=
        productCost_nonneg products a.1 hcost
      have hcogp : 0 ≤ productCost products a.1 * (a.2 : ℚ) :=
        mul_nonneg hvc (by exact_mod_cast ha)
      refine ih (fun pu hpu => hvals pu (List.mem_cons_of_mem a hpu))
        (dealFinStep products model_of brand acc a) ?_ ?_
      · intro pd hpd
        unfold dealFinStep at hpd
        rcases List.mem_append.mp hpd with hl | hr
        · exact h1 pd hl
        · have hp : pd = (a.1,
              { units := a.2,
                price := calculate_pricing (productCost products a.1) a.2
                  model_of brand,
                variable_cost := productCost products a.1,
                annual_revenue := calculate_pricing (productCost products a.1)
                  a.2 model_of brand * (a.2 : ℚ),
                annual_cogp := productCost products a.1 * (a.2 : ℚ),
                annual_profit := calculate_pricing (productCost products a.1)
                  a.2 model_of brand * (a.2 : ℚ) -
                  productCost products a.1 * (a.2 : ℚ) }) := by
            simpa using hr
          rw [hp]
          exact ha
      · unfold dealFinStep
        simp only []
        linarith

theorem dealFinancials_units (products : List Product)
    (alloc : List (String × ℤ)) (model_of : String) (brand : BrandAgent)
    (hvals : ∀ pu ∈ alloc, 0 ≤ pu.2)
    (hcost : ∀ p ∈ products, 0 ≤ p.variable_cost) :
    ∀ pd ∈ (dealFinancials products alloc model_of brand).1, 0 ≤ pd.2.units :=
  (dealFinancials_aux products alloc model_of brand hvals hcost ([], 0, 0)
    (by simp) (le_refl 0)).1

theorem dealFinancials_profit_le (products : List Product)
    (alloc : List (String × ℤ)) (model_of : String) (brand : BrandAgent)
    (hvals : ∀ pu ∈ alloc, 0 ≤ pu.2)
    (hcost : ∀ p ∈ products, 0 ≤ p.variable_cost) :
    (dealFinancials products alloc model_of brand).2.2 ≤
      (dealFinancials products alloc model_of brand).2.1 :=
  (dealFinancials_aux products alloc model_of brand hvals hcost ([], 0, 0)
    (by simp) (le_refl 0)).2

theorem newDealLoop_aux (products : List Product)
    (alloc : List (String × ℤ)) (model_of : String) (brand : BrandAgent)
    (dm : Nat) (hvals : ∀ pu ∈ alloc, 0 ≤ pu.2)
    (hcost : ∀ p ∈ products, 0 ≤ p.variable_cost) :
    ∀ acc : NewDealAcc,
      (∀ pd ∈ acc.deal_products, 0 ≤ pd.2.units) →
      acc.monthly_profit ≤ acc.monthly_revenue →
      (∀ pd ∈ (alloc.foldl (newDealStep products model_of brand dm)
        acc).deal_products, 0 ≤ pd.2.units) ∧
      (alloc.foldl (newDealStep products model_of brand dm)
        acc).monthly_profit ≤
        (alloc.foldl (newDealStep products model_of brand dm)
          acc).monthly_revenue := by
  induction alloc with
  | nil =>
      intro acc h1 h2
      exact ⟨h1, h2⟩
  | cons a rest ih =>
      intro acc h1 h2
      rw [List.foldl_cons]
      have ha := hvals a (by simp)
      have hvc : 0 ≤ productCost products a.1 :=
        productCost_nonneg products a.1 hcost
      have hcogp : 0 ≤ productCost products a.1 * (a.2 : ℚ) :=
        mul_nonneg hvc (by exact_mod_cast ha)
      refine ih (fun pu hpu => hvals pu (List.mem_cons_of_mem a hpu))
        (newDealStep products model_of brand dm acc a) ?_ ?_
      · intro pd hpd
        unfold newDealStep at hpd
        simp only [] at hpd
        rcases List.mem_append.mp hpd with hl | hr
        · exact h1 pd hl
        · have hp : pd.2.units = a.2 := by
            have : pd = (a.1,
                { units := a.2,
                  price := calculate_pricing (productCost products a.1) a.2
                    model_of brand,
                  variable_cost := productCost products a.1,
                  annual_revenue := calculate_pricing
                    (productCost products a.1) a.2 model_of brand * (a.2 : ℚ),
                  annual_cogp := productCost products a.1 * (a.2 : ℚ),
                  annual_profit := calculate_pricing (productCost products a.1)
                    a.2 model_of brand * (a.2 : ℚ) -
                    productCost products a.1 * (a.2 : ℚ) }) := by
              simpa using hr
            rw [this]
          rw [hp]
          exact ha
      · unfold newDealStep
        simp only []
        linarith

theorem newDealLoop_units (products : List Product)
    (alloc : List (String × ℤ)) (model_of : String) (brand : BrandAgent)
    (dm : Nat) (rev_by prof_by : List (String × ℚ))
    (hvals : ∀ pu ∈ alloc, 0 ≤ pu.2)
    (hcost : ∀ p ∈ products, 0 ≤ p.variable_cost) :
    ∀ pd ∈ (newDealLoop products alloc model_of brand dm rev_by
      prof_by).deal_products, 0 ≤ pd.2.units :=
  (newDealLoop_aux products alloc model_of brand dm hvals hcost _
    (by simp) (le_refl 0)).1

theorem newDealLoop_profit_le (products : List Product)
    (alloc : List (String × ℤ)) (model_of : String) (brand : BrandAgent)
    (dm : Nat) (rev_by prof_by : List (String × ℚ))
    (hvals : ∀ pu ∈ alloc, 0 ≤ pu.2)
    (hcost : ∀ p ∈ products, 0 ≤ p.variable_cost) :
    (newDealLoop products alloc model_of brand dm rev_by
      prof_by).monthly_profit ≤
      (newDealLoop products alloc model_of brand dm rev_by
        prof_by).monthly_revenue :=
  (newDealLoop_aux products alloc model_of brand dm hvals hcost _
    (by simp) (le_refl 0)).2

theorem dealFin_units_aux (products : List Product)
    (alloc : List (String × ℤ)) (model_of : String) (brand : BrandAgent)
    (hvals : ∀ pu ∈ alloc, 0 ≤ pu.2) :
    ∀ acc : List (String × DealProduct) × ℚ × ℚ,
      (∀ pd ∈ acc.1, 0 ≤ pd.2.units) →
      ∀ pd ∈ (alloc.foldl (dealFinStep products model_of brand) acc).1,
        0 ≤ pd.2.units := by
  induction alloc with
  | nil => intro acc h1; exact h1
  | cons a rest ih =>
      intro acc h1
      rw [List.foldl_cons]
      have ha := hvals a (by simp)
      refine ih (fun pu hpu => hvals pu (List.mem_cons_of_mem a hpu))
        (dealFinStep products model_of brand acc a) ?_
      intro pd hpd
      unfold dealFinStep at hpd
      rcases List.mem_append.mp hpd with hl | hr
      · exact h1 pd hl
      · have hp : pd.2.units = a.2 := by
          have := List.mem_singleton.mp hr
          rw [this]
        rw [hp]
        exact ha

theorem newDeal_units_aux (products : List Product)
    (alloc : List (String × ℤ)) (model_of : String) (brand : BrandAgent)
    (dm : Nat) (hvals : ∀ pu ∈ alloc, 0 ≤ pu.2) :
    ∀ acc : NewDealAcc,
      (∀ pd ∈ acc.deal_products, 0 ≤ pd.2.units) →
      ∀ pd ∈ (alloc.foldl (newDealStep products model_of brand dm)
        acc).deal_products, 0 ≤ pd.2.units := by
  induction alloc with
  | nil => intro acc h1; exact h1
  | cons a rest ih =>
      intro acc h1
      rw [List.foldl_cons]
      have ha := hvals a (by simp)
      refine ih (fun pu hpu => hvals pu (List.mem_cons_of_mem a hpu))
        (newDealStep products model_of brand dm acc a) ?_
      intro pd hpd
      unfold newDealStep at hpd
      simp only [] at hpd
      rcases List.mem_append.mp hpd with hl | hr
      · exact h1 pd hl
      · have hp : pd.2.units = a.2 := by
          have := List.mem_singleton.mp hr
          rw [this]
        rw [hp]
        exact ha

theorem renewalStep_inv (e : Engine) (month : Nat) (st : TrialState)
    (p : PartnershipDeal) (h : StateInv e st) :
    StateInv e (renewalStep e month st p) := by
  unfold renewalStep
  by_cases hb : p.brand_name ∈ st.blocked_brands
  · rw [if_pos hb]
    exact h
  · rw [if_neg hb]
    simp only []
    by_cases hd : (st.rng.next).1 < 1/2
    · rw [if_pos hd]
      cases hfind : e.brand_agents.find?
          (fun b => b.brand_name == p.brand_name) with
      | none =>
          simp only [hfind]
          exact h
      | some rb =>
          simp only [hfind]
          by_cases halloc : (macron_capacity_allocation e.config
              e.product_list p.annual_units p.model st.tracker rb
              (st.rng.next).2).1.1 > 0
          · rw [if_pos halloc]
            constructor
            · exact commit_alloc_result_inv e st.tracker p.annual_units
                p.model rb (st.rng.next).2 h.1
            · intro d hd2 pd hpd
              rcases List.mem_append.mp hd2 with hmem | hnew
              · exact h.2 d hmem pd hpd
              · have hdEq := List.mem_singleton.mp hnew
                subst hdEq
                simp only [] at hpd
                have hvals : ∀ pu ∈ (macron_capacity_allocation e.config
                    e.product_list p.annual_units p.model st.tracker rb
                    (st.rng.next).2).1.2, 0 ≤ pu.2 :=
                  fun pu hpu => ((macron_allocation_spec e.config
                    e.product_list p.annual_units p.model st.tracker rb
                    (st.rng.next).2).2.1 pu hpu).1
                exact dealFin_units_aux e.product_list _ p.model rb hvals
                  ([], 0, 0) (by simp) pd hpd
          · rw [if_neg halloc]
            exact h
    · rw [if_neg hd]
      exact h

theorem proposalCommit_inv (e : Engine) (model_of : String) (month : Nat)
    (st : TrialState) (brand : BrandAgent) (desired : ℤ) (rng0 : Rng)
    (h : StateInv e st) :
    StateInv e (proposalCommit e model_of month st brand
      (macron_capacity_allocation e.config e.product_list desired model_of
        st.tracker brand rng0).1.2) := by
  constructor
  · exact commit_alloc_result_inv e st.tracker desired model_of brand rng0 h.1
  · intro d hd2 pd hpd
    unfold proposalCommit at hd2
    simp only [] at hd2
    rcases List.mem_append.mp hd2 with hmem | hnew
    · exact h.2 d hmem pd hpd
    · have hdEq := List.mem_singleton.mp hnew
      subst hdEq
      simp only [] at hpd
      have hvals : ∀ pu ∈ (macron_capacity_allocation e.config
          e.product_list desired model_of st.tracker brand rng0).1.2,
          0 ≤ pu.2 :=
        fun pu hpu => ((macron_allocation_spec e.config e.product_list
          desired model_of st.tracker brand rng0).2.1 pu hpu).1
      exact newDeal_units_aux e.product_list _ model_of brand _ hvals
        _ (by simp) pd hpd

theorem proposalAllocated_inv (e : Engine) (model_of : String) (month : Nat)
    (st : TrialState) (brand : BrandAgent) (desired : ℤ)
    (h : StateInv e st) :
    StateInv e (proposalAllocated e model_of month st brand desired) := by
  unfold proposalAllocated
  simp only []
  split
  next => exact ⟨h.1, h.2⟩
  next =>
    split
    next =>
      exact proposalCommit_inv e model_of month _ brand desired st.rng h
    next => exact h

set_option maxHeartbeats 1000000 in
theorem proposalStep_inv (e : Engine) (model_of : String) (month : Nat)
    (st : TrialState) (brand : BrandAgent) (h : StateInv e st) :
    StateInv e (proposalStep e model_of month st brand) := by
  unfold proposalStep
  repeat' first
    | split
    | simp only []
  all_goals
    first
    | exact h
    | exact proposalAllocated_inv e model_of month _ brand _ h

theorem releaseTracker_inv (e : Engine) (st : TrialState)
    (p : PartnershipDeal) (hp : p ∈ st.active_partnerships)
    (h : StateInv e st) :
    StateInv e { st with tracker := releaseDealCapacity st.tracker p } := by
  refine ⟨⟨?_, ?_⟩, h.2⟩
  · rw [releaseDealCapacity_annual]
    exact h.1.1
  · exact releaseDealCapacity_inv st.tracker p (h.2 p hp) h.1.2

theorem expiryLoop_inv (e : Engine) (month : Nat) (fuel : Nat) :
    ∀ (i : Nat) (st : TrialState) (toRemove : List Nat),
    StateInv e st → StateInv e (expiryLoop e month fuel i st toRemove).1 := by
  induction fuel with
  | zero =>
      intro i st toRemove h
      exact h
  | succ fuel ih =>
      intro i st toRemove h
      unfold expiryLoop
      cases hget : st.active_partnerships.get? i with
      | none => exact h
      | some p =>
          simp only [hget]
          have hp : p ∈ st.active_partnerships := List.get?_mem hget
          split
          · exact ih (i + 1)
              (renewalStep e month
                { st with tracker := releaseDealCapacity st.tracker p } p)
              (toRemove ++ [i])
              (renewalStep_inv e month _ p (releaseTracker_inv e st p hp h))
          · exact ih (i + 1) st toRemove h

theorem removeIndices_mem {l : List PartnershipDeal} {idxs : List Nat}
    {d : PartnershipDeal} (h : d ∈ removeIndices l idxs) : d ∈ l := by
  unfold removeIndices at h
  generalize hrev : idxs.reverse = r at h
  clear hrev
  induction r generalizing l with
  | nil => exact h
  | cons i rest ih =>
      rw [List.foldl_cons] at h
      exact (List.eraseIdx_sublist l i).mem (ih h)

theorem expiryPhase_inv (e : Engine) (month : Nat) (fuel : Nat)
    (st : TrialState) (h : StateInv e st) :
    StateInv e (expiryPhase e month fuel st) := by
  unfold expiryPhase
  have h1 := expiryLoop_inv e month fuel 0 st [] h
  refine ⟨h1.1, ?_⟩
  intro d hd
  exact h1.2 d (removeIndices_mem hd)

theorem accrueFold_fields (month : Nat) (l : List PartnershipDeal) :
    ∀ st : TrialState,
    (l.foldl (fun st p =>
      if p.start_month ≤ month ∧ month ≤ p.end_month then
        { st with
          monthly_revenues := addAt st.monthly_revenues (month - 1)
            p.monthly_revenue,
          monthly_profits := addAt st.monthly_profits (month - 1)
            p.monthly_profit }
      else st) st).tracker = st.tracker ∧
    (l.foldl (fun st p =>
      if p.start_month ≤ month ∧ month ≤ p.end_month then
        { st with
          monthly_revenues := addAt st.monthly_revenues (month - 1)
            p.monthly_revenue,
          monthly_profits := addAt st.monthly_profits (month - 1)
            p.monthly_profit }
      else st) st).active_partnerships = st.active_partnerships := by
  induction l with
  | nil => intro st; exact ⟨rfl, rfl⟩
  | cons a rest ih =>
      intro st
      rw [List.foldl_cons]
      split
      · exact ih _
      · exact ih _

theorem accrue_fields (month : Nat) (st : TrialState) :
    (accrue month st).tracker = st.tracker ∧
    (accrue month st).active_partnerships = st.active_partnerships :=
  accrueFold_fields month st.active_partnerships st

theorem accrue_inv (e : Engine) (month : Nat) (st : TrialState)
    (h : StateInv e st) : StateInv e (accrue month st) := by
  have hf := accrue_fields month st
  constructor
  · rw [show (accrue month st).tracker = st.tracker from hf.1]
    exact h.1
  · rw [show (accrue month st).active_partnerships = st.active_partnerships
      from hf.2]
    exact h.2

theorem updateCobrandedCount_inv (e : Engine) (model_of : String)
    (month : Nat) (st : TrialState) (h : StateInv e st) :
    StateInv e (updateCobrandedCount model_of month st) := by
  unfold updateCobrandedCount
  split
  · exact ⟨h.1, h.2⟩
  · exact h

theorem brandFold_inv (e : Engine) (model_of : String) (month : Nat)
    (brands : List BrandAgent) :
    ∀ (st : TrialState), StateInv e st →
    StateInv e (brands.foldl (proposalStep e model_of month) st) := by
  induction brands with
  | nil => intro st h; exact h
  | cons b rest ih =>
      intro st h
      rw [List.foldl_cons]
      exact ih _ (proposalStep_inv e model_of month st b h)

theorem monthStep_inv (e : Engine) (model_of : String) (fuel : Nat)
    (month : Nat) (st : TrialState) (h : StateInv e st) :
    StateInv e (monthStep e model_of fuel month st) := by
  unfold monthStep
  have h1 := expiryPhase_inv e month fuel st h
  have h2 := updateCobrandedCount_inv e model_of month _ h1
  have h3 := brandFold_inv e model_of month e.brand_agents _ h2
  have h4 := accrue_inv e month _ h3
  exact ⟨h4.1, h4.2⟩

theorem runMonthsFrom_inv (e : Engine) (model_of : String) (fuel : Nat) :
    ∀ (month remaining : Nat) (st : TrialState), StateInv e st →
    StateInv e (runMonthsFrom e model_of fuel month remaining st) := by
  intro month remaining
  induction remaining generalizing month with
  | zero => intro st h; exact h
  | succ r ih =>
      intro st h
      unfold runMonthsFrom
      exact ih (month + 1) _ (monthStep_inv e model_of fuel month st h)

theorem lookupD_map_nonneg (products : List Product) (capf : Product → ℤ)
    (name : String) (hcap : ∀ p ∈ products, 0 ≤ capf p) :
    0 ≤ lookupD (products.map (fun p => (p.name, capf p))) name 0 := by
  induction products with
  | nil => simp [lookupD]
  | cons p t ih =>
      rw [List.map_cons, lookupD_cons]
      split
      · exact hcap p (by simp)
      · exact ih (fun q hq => hcap q (List.mem_cons_of_mem p hq))

theorem initialTrialState_inv (e : Engine) (rng : Rng)
    (hcap : ∀ p ∈ e.product_list,
      0 ≤ e.config.production_capacity.get_product_capacity p.complexity) :
    StateInv e (initialTrialState e rng) := by
  constructor
  · constructor
    · rfl
    · intro name
      have hcom : lookupD (e.product_list.map (fun p => (p.name, (0:ℤ))))
          name 0 = 0 := lookupD_map_zero e.product_list name
      constructor
      · rw [show (initialTrialState e rng).tracker.committed_capacity =
          e.product_list.map (fun p => (p.name, (0:ℤ))) from rfl, hcom]
      · rw [show (initialTrialState e rng).tracker.committed_capacity =
          e.product_list.map (fun p => (p.name, (0:ℤ))) from rfl, hcom]
        rw [show (initialTrialState e rng).tracker.annual_capacity =
          e.product_list.map (fun p => (p.name,
            e.config.production_capacity.get_product_capacity p.complexity))
          from rfl]
        exact lookupD_map_nonneg e.product_list _ name hcap
  · intro d hd
    simp only [initialTrialState] at hd
    exact absurd hd (List.not_mem_nil d)

/-! ## Claim theorems -/

theorem lookupD_table_nonneg (l : List (ℤ × ℚ)) (k : ℤ) (d : ℚ)
    (hl : ∀ kv ∈ l, 0 ≤ kv.2) (hd : 0 ≤ d) : 0 ≤ lookupD l k d := by
  induction l with
  | nil => exact hd
  | cons a t ih =>
      rw [lookupD_cons]
      split
      · exact hl a (by simp)
      · exact ih (fun kv hkv => hl kv (List.mem_cons_of_mem a hkv))

/-- C2: Pricing floor — for every product with `variable_cost ≥ 0`, every
unit count `≥ 0`, every brand with `market_leader_score ≥ 0` and both
models, the price returned by `_calculate_pricing` is at least the
product's variable cost. -/
theorem C2_pricing_floor (base_cost : ℚ) (units : ℤ) (model_of : String)
    (brand : BrandAgent) (hcost : 0 ≤ base_cost) (hunits : 0 ≤ units)
    (hmls : 0 ≤ brand.market_leader_score) :
    base_cost ≤ calculate_pricing base_cost units model_of brand := by
  unfold calculate_pricing
  split
  · have hseg : 0 ≤ lookupD segmentPremiums (brand.segment_id.headD 3)
        (3/100) := by
      refine lookupD_table_nonneg _ _ _ ?_ (by norm_num)
      intro kv hkv
      fin_cases hkv <;> norm_num
    simp only []
    split
    · nlinarith [hseg, hmls, hcost]
    · split
      · nlinarith [hseg, hmls, hcost]
      · nlinarith [hseg, hmls, hcost]
  · simp only []
    split_ifs <;> nlinarith [hcost]

attribute [local semireducible] Rat.mul Rat.inv Rat.add Rat.sub in
theorem C2_witness :
    (0:ℚ) ≤ 10 ∧ (0:ℤ) ≤ 1000 ∧ 0 ≤ (brandAlpha (1/2)).market_leader_score ∧
    (10:ℚ) ≤ calculate_pricing 10 1000 "co-branded" (brandAlpha (1/2)) ∧
    (10:ℚ) ≤ calculate_pricing 10 1000 "white-label" (brandAlpha (1/2)) :=
  ⟨by norm_num, by norm_num, by decide,
    C2_pricing_floor 10 1000 "co-branded" (brandAlpha (1/2)) (by norm_num)
      (by norm_num) (by decide),
    C2_pricing_floor 10 1000 "white-label" (brandAlpha (1/2)) (by norm_num)
      (by norm_num) (by decide)⟩

attribute [local semireducible] Rat.mul Rat.inv Rat.add Rat.sub in
/-- C3 counterexample: with the default configuration
(`min_units_per_product = 2000`), a small brand's desired unit count is the
hard-coded floor 1000, which lies outside the configured band — the code
clamps at the constant 1000, not at `min_units_per_product`. -/
theorem C3_counterexample :
    ¬ (cfgDefault.min_units_per_product ≤
        (calculate_brand_demand cfgDefault brandTiny "co-branded" rngHalf).1 ∧
      (calculate_brand_demand cfgDefault brandTiny "co-branded" rngHalf).1 ≤
        cfgDefault.max_units_per_product) := by decide

/-- C3 (amended): the Demand Estimator's result always lies in
`[min 1000 max_units_per_product, max_units_per_product]`; the lower clamp
is the hard-coded constant 1000 (`max(1000, final_units)` in the source),
not the configured `min_units_per_product`. -/
theorem C3_demand_clamp_amended (cfg : SimulationConfig)
    (brand : BrandAgent) (model_of : String) (rng : Rng) :
    min 1000 cfg.max_units_per_product ≤
      (calculate_brand_demand cfg brand model_of rng).1 ∧
    (calculate_brand_demand cfg brand model_of rng).1 ≤
      cfg.max_units_per_product := by
  unfold calculate_brand_demand
  simp only []
  constructor
  · have h1 : (1000:ℤ) ≤ max 1000 (pyInt
        ((pyInt ((pyInt (brand.annual_revenue_millions * 1000000 /
          brand.avg_price_index *
          (if (model_of == "co-branded") = true then 1/100 else 15/1000)) : ℚ) *
          lookupD segmentAdjustments (brand.segment_id.headD 3) (8/10)) : ℚ) *
          (pyUniform rng (8/10) (12/10)).1)) := le_max_left 1000 _
    omega
  · exact min_le_right _ _

/-- C5: Anti-monopolization cap — when the Allocation Policy runs with a
priority score at or below the boost threshold `1.5`, the granted units
never exceed 20% of the total capacity available across all products at the
time of the call. -/
theorem C5_anti_monopolization (cfg : SimulationConfig)
    (products : List Product) (desired_units : ℤ) (model_of : String)
    (tracker : CapacityTracker) (brand : BrandAgent) (rng : Rng)
    (hp : priorityScore brand model_of ≤ 3/2)
    (htot : 0 ≤ sumValues (productAvailability cfg products tracker)) :
    ((macron_capacity_allocation cfg products desired_units model_of tracker
      brand rng).1.1 : ℚ) ≤
      (sumValues (productAvailability cfg products tracker) : ℚ) * (2/10) :=
  (macron_allocation_spec cfg products desired_units model_of tracker brand
    rng).2.2.2 hp htot

attribute [local semireducible] Rat.mul Rat.inv Rat.add Rat.sub in
theorem C5_witness :
    priorityScore (brandAlpha (1/2)) "white-label" ≤ 3/2 ∧
    0 ≤ sumValues (productAvailability cfgDefault [prodHydro] trackerC5) ∧
    ((macron_capacity_allocation cfgDefault [prodHydro] 5000 "white-label"
      trackerC5 (brandAlpha (1/2)) rngHalf).1.1 : ℚ) ≤
      (sumValues (productAvailability cfgDefault [prodHydro] trackerC5) : ℚ) *
        (2/10) :=
  ⟨by decide, by decide,
    C5_anti_monopolization cfgDefault [prodHydro] 5000 "white-label"
      trackerC5 (brandAlpha (1/2)) rngHalf (by decide) (by decide)⟩

/-- C7: Per-deal profit bound — in both the new-deal and the renewal
financial loops, assuming nonnegative variable costs and nonnegative
allocated unit counts, the deal's `monthly_profit` never exceeds its
`monthly_revenue` (profit is revenue minus a nonnegative cost of goods). -/
theorem C7_profit_le_revenue (products : List Product)
    (alloc : List (String × ℤ)) (model_of : String) (brand : BrandAgent)
    (dm : Nat) (rev_by prof_by : List (String × ℚ))
    (hvals : ∀ pu ∈ alloc, 0 ≤ pu.2)
    (hcost : ∀ p ∈ products, 0 ≤ p.variable_cost) :
    (dealFinancials products alloc model_of brand).2.2 ≤
      (dealFinancials products alloc model_of brand).2.1 ∧
    (newDealLoop products alloc model_of brand dm rev_by
      prof_by).monthly_profit ≤
      (newDealLoop products alloc model_of brand dm rev_by
        prof_by).monthly_revenue :=
  ⟨dealFinancials_profit_le products alloc model_of brand hvals hcost,
   newDealLoop_profit_le products alloc model_of brand dm rev_by prof_by
     hvals hcost⟩

theorem C7_witness :
    (∀ pu ∈ [("Hydrotex Base", (2000:ℤ))], 0 ≤ pu.2) ∧
    (∀ p ∈ [prodHydro], 0 ≤ p.variable_cost) ∧
    ((dealFinancials [prodHydro] [("Hydrotex Base", 2000)] "white-label"
      (brandAlpha (1/2))).2.2 ≤
      (dealFinancials [prodHydro] [("Hydrotex Base", 2000)] "white-label"
        (brandAlpha (1/2))).2.1 ∧
    (newDealLoop [prodHydro] [("Hydrotex Base", 2000)] "white-label"
      (brandAlpha (1/2)) 12 [] []).monthly_profit ≤
      (newDealLoop [prodHydro] [("Hydrotex Base", 2000)] "white-label"
        (brandAlpha (1/2)) 12 [] []).monthly_revenue) :=
  ⟨by norm_num, by norm_num [prodHydro],
    C7_profit_le_revenue [prodHydro] [("Hydrotex Base", 2000)] "white-label"
      (brandAlpha (1/2)) 12 [] [] (by norm_num)
      (by norm_num [prodHydro])⟩

/-- C10: utilization totality — `CapacityTracker.get_utilization` returns
0 when the summed annual capacity is zero (no division by zero), and the
committed-over-annual percentage when it is positive. -/
theorem C10_utilization_total (t : CapacityTracker) :
    (sumValues t.annual_capacity = 0 → t.get_utilization = 0) ∧
    (0 < sumValues t.annual_capacity →
      t.get_utilization = (sumValues t.committed_capacity : ℚ) /
        (sumValues t.annual_capacity : ℚ) * 100) := by
  unfold CapacityTracker.get_utilization
  constructor
  · intro h
    rw [h]
    norm_num
  · intro h
    simp only []
    rw [if_pos h]

attribute [local semireducible] Rat.mul Rat.inv Rat.add Rat.sub in
theorem C10_witness :
    CapacityTracker.get_utilization ⟨[], []⟩ = 0 ∧
    CapacityTracker.get_utilization ⟨[("A", 200)], [("A", 50)]⟩ = 25 := by
  constructor
  · exact (C10_utilization_total ⟨[], []⟩).1 rfl
  · rw [(C10_utilization_total ⟨[("A", 200)], [("A", 50)]⟩).2 (by decide)]
    norm_num [sumValues]

/-- C9: with `n_simulations = 0` the Driver runs no trials and the
aggregation step fails with `KeyError: total_revenue` when it accesses the
column on the empty DataFrame — it neither returns empty aggregate
statistics nor rejects the configuration beforehand. -/
theorem C9_zero_trials (e : Engine) (sq : ℚ → ℚ) (fuel : Nat)
    (h : e.config.n_simulations = 0) :
    run_simulation_driver e sq fuel =
      Except.error "KeyError: total_revenue" := by
  unfold run_simulation_driver analyze_results modelStats dfColumn
  rw [h]
  simp [List.range_zero, Bind.bind, Except.bind]

theorem C9_witness :
    run_simulation_driver engZero (fun q => q) 1 =
      Except.error "KeyError: total_revenue" :=
  C9_zero_trials engZero (fun q => q) 1 rfl

/-- C1: Capacity invariant — throughout every trial (after any number of
monthly steps from the initial state) every product's committed capacity
lies in `[0, annual_capacity]`, and committing any allocation-policy result
preserves the tracker invariant, because the allocation routine clips each
product's slice to that product's currently available capacity before any
capacity is committed. -/
theorem C1_capacity_invariant (e : Engine) (model_of : String) (fuel : Nat)
    (rng : Rng) (m : Nat)
    (hcap : ∀ p ∈ e.product_list,
      0 ≤ e.config.production_capacity.get_product_capacity p.complexity) :
    (∀ name : String,
      0 ≤ lookupD (runMonthsFrom e model_of fuel 1 m
        (initialTrialState e rng)).tracker.committed_capacity name 0 ∧
      lookupD (runMonthsFrom e model_of fuel 1 m
        (initialTrialState e rng)).tracker.committed_capacity name 0 ≤
      lookupD (runMonthsFrom e model_of fuel 1 m
        (initialTrialState e rng)).tracker.annual_capacity name 0) ∧
    (∀ (t : CapacityTracker) (desired : ℤ) (brand : BrandAgent) (r : Rng),
      TrackerInv e t →
      TrackerInv e (commitAllocation t (macron_capacity_allocation e.config
        e.product_list desired model_of t brand r).1.2)) := by
  constructor
  · exact (runMonthsFrom_inv e model_of fuel 1 m _
      (initialTrialState_inv e rng hcap)).1.2
  · intro t desired brand r hTI
    exact commit_alloc_result_inv e t desired model_of brand r hTI

attribute [local semireducible] Rat.mul Rat.inv Rat.add Rat.sub in
theorem C1_witness :
    0 ≤ lookupD (runMonthsFrom (engAlpha (19/20)) "white-label" 2 1 2
      (initialTrialState (engAlpha (19/20))
        rngHalf)).tracker.committed_capacity "Hydrotex Base" 0 ∧
    lookupD (runMonthsFrom (engAlpha (19/20)) "white-label" 2 1 2
      (initialTrialState (engAlpha (19/20))
        rngHalf)).tracker.committed_capacity "Hydrotex Base" 0 ≤
    lookupD (runMonthsFrom (engAlpha (19/20)) "white-label" 2 1 2
      (initialTrialState (engAlpha (19/20))
        rngHalf)).tracker.annual_capacity "Hydrotex Base" 0 :=
  (C1_capacity_invariant (engAlpha (19/20)) "white-label" 2 rngHalf 2
    (by decide)).1 "Hydrotex Base"

theorem mem_addSet_iff (l : List String) (k a : String) :
    a ∈ addSet l k ↔ a ∈ l ∨ a = k := by
  unfold addSet
  split
  · next hk =>
      constructor
      · exact Or.inl
      · intro h
        rcases h with h | h
        · exact h
        · exact h ▸ hk
  · next hk =>
      rw [List.mem_append]
      simp

attribute [local semireducible] Rat.mul Rat.inv Rat.add Rat.sub in
/-- C4 counterexample: an expiring deal whose brand is not blocked and
whose stochastic renewal check fails (the draw `9/10` is not below `1/2`,
so no renewal attempt is made and the Allocation Policy is never called)
still gets its brand added to the blocked set, contradicting the claim
that only a failed allocation blocks a brand. -/
theorem C4_counterexample :
    "Beta" ∉ stBeta.blocked_brands ∧
    ¬ (clamp01 (stBeta.rng.stream stBeta.rng.idx) < 1/2) ∧
    "Beta" ∈ (renewalStep engExpiry 13 stBeta dealBeta).blocked_brands := by
  refine ⟨by decide, by decide, by decide⟩

/-- C4 (amended): during the expiry step, an expiring deal's brand ends up
in the blocked set iff it was already blocked, or the stochastic renewal
check failed (no attempt made), or a renewal attempt was made (check
passed and the brand object was found) and the Allocation Policy granted
zero units; the only expiring brands not blocked are those that renew
successfully and those whose brand object is missing. -/
theorem C4_blocked_amended (e : Engine) (month : Nat) (st : TrialState)
    (p : PartnershipDeal) :
    p.brand_name ∈ (renewalStep e month st p).blocked_brands ↔
      (p.brand_name ∈ st.blocked_brands ∨
       ¬ ((st.rng.next).1 < 1/2) ∨
       (∃ rb, e.brand_agents.find?
          (fun b => b.brand_name == p.brand_name) = some rb ∧
         ¬ ((macron_capacity_allocation e.config e.product_list
            p.annual_units p.model st.tracker rb
            (st.rng.next).2).1.1 > 0))) := by
  unfold renewalStep
  by_cases hb : p.brand_name ∈ st.blocked_brands
  · rw [if_pos hb]
    simp [mem_addSet_iff, hb]
  · rw [if_neg hb]
    simp only []
    by_cases hd : (st.rng.next).1 < 1/2
    · rw [if_pos hd]
      cases hfind : e.brand_agents.find?
          (fun b => b.brand_name == p.brand_name) with
      | none =>
          simp only [hfind]
          simp [hb, hd]
          linarith [hd]
      | some rb =>
          simp only [hfind]
          by_cases halloc : (macron_capacity_allocation e.config
              e.product_list p.annual_units p.model st.tracker rb
              (st.rng.next).2).1.1 > 0
          · rw [if_pos halloc]
            simp only [List.mem_append]
            simp [hb, hd, halloc]
            linarith [hd]
          · rw [if_neg halloc]
            simp [mem_addSet_iff, hb, hd, halloc]
            exact Or.inr (by omega)
    · rw [if_neg hd]
      simp [mem_addSet_iff, hb, hd]
      exact Or.inl (by linarith [not_lt.mp hd])

attribute [local semireducible] Rat.mul Rat.inv Rat.add Rat.sub in
/-- C8 counterexample: two engines that agree on the configuration, the
seeded random stream, the product list, the propensity oracle and every
statically loaded brand field — i.e. two executions of trial 0 with the
identical `(seed, config)` pair — produce different Trial Outcomes,
because the construction-time random field `decision_speed` (drawn from
the unseeded process-global generator when the agents are loaded) differs:
one run forms a partnership, the other forms none. -/
theorem C8_counterexample :
    (engAlpha (19/20)).config = (engAlpha (1/5)).config ∧
    (engAlpha (19/20)).product_list = (engAlpha (1/5)).product_list ∧
    (engAlpha (19/20)).propensity = (engAlpha (1/5)).propensity ∧
    (engAlpha (19/20)).seedStream = (engAlpha (1/5)).seedStream ∧
    (engAlpha (19/20)).monthly_discount_rate =
      (engAlpha (1/5)).monthly_discount_rate ∧
    List.Forall₂ sameLoadedFields (engAlpha (19/20)).brand_agents
      (engAlpha (1/5)).brand_agents ∧
    (run_single_simulation (engAlpha (19/20)) 0 "white-label"
      2).partnerships_formed ≠
      (run_single_simulation (engAlpha (1/5)) 0 "white-label"
        2).partnerships_formed := by
  refine ⟨rfl, rfl, rfl, rfl, rfl, ?_, by decide⟩
  refine List.Forall₂.cons ?_ List.Forall₂.nil
  exact ⟨rfl, rfl, rfl, rfl, rfl, rfl, rfl⟩

/-- C8 (amended): a trial outcome is a deterministic function of the seed,
the configuration, the loaded product/propensity data *and* the brand
population including its construction-time random fields; two executions
with identical `(seed, config)` and identical brand populations (all
fields, `risk_appetite` and `decision_speed` included) produce identical
Trial Outcomes. -/
theorem C8_determinism_amended (e1 e2 : Engine) (sim_id : Nat)
    (model_of : String) (fuel : Nat)
    (hc : e1.config = e2.config) (hp : e1.product_list = e2.product_list)
    (hpr : e1.propensity = e2.propensity)
    (hs : e1.seedStream = e2.seedStream)
    (hm : e1.monthly_discount_rate = e2.monthly_discount_rate)
    (hb : e1.brand_agents = e2.brand_agents) :
    run_single_simulation e1 sim_id model_of fuel =
      run_single_simulation e2 sim_id model_of fuel := by
  have hEq : e1 = e2 := by
    cases e1
    cases e2
    simp_all
  rw [hEq]

theorem C8_witness :
    run_single_simulation (engAlpha (1/2)) 0 "white-label" 2 =
      run_single_simulation (engAlpha (1/2)) 0 "white-label" 2 :=
  C8_determinism_amended (engAlpha (1/2)) (engAlpha (1/2)) 0 "white-label" 2
    rfl rfl rfl rfl rfl rfl

theorem expiryLoop_none (e : Engine) (m fuel i : Nat) (st : TrialState)
    (tr : List Nat) (hget : st.active_partnerships.get? i = none) :
    expiryLoop e m (fuel + 1) i st tr = (st, tr) := by
  rw [expiryLoop]
  rw [List.get?_eq_getElem?] at hget
  simp [hget]

theorem expiryLoop_stop (e : Engine) (m fuel i : Nat) (st : TrialState)
    (tr : List Nat) (hget : st.active_partnerships.get? i = none) :
    expiryLoop e m fuel i st tr = (st, tr) := by
  cases fuel with
  | zero => rfl
  | succ f => exact expiryLoop_none e m f i st tr hget

theorem expiryLoop_skip (e : Engine) (m fuel i : Nat) (st : TrialState)
    (tr : List Nat) (p : PartnershipDeal)
    (hget : st.active_partnerships.get? i = some p)
    (hne : p.end_month ≠ m) :
    expiryLoop e m (fuel + 1) i st tr = expiryLoop e m fuel (i + 1) st tr := by
  rw [expiryLoop]
  rw [List.get?_eq_getElem?] at hget
  simp [hget, hne]

theorem expiryLoop_expire (e : Engine) (m fuel i : Nat) (st : TrialState)
    (tr : List Nat) (p : PartnershipDeal)
    (hget : st.active_partnerships.get? i = some p)
    (heq : p.end_month = m) :
    expiryLoop e m (fuel + 1) i st tr =
      expiryLoop e m fuel (i + 1)
        (renewalStep e m
          { st with tracker := releaseDealCapacity st.tracker p } p)
        (tr ++ [i]) := by
  rw [expiryLoop]
  rw [List.get?_eq_getElem?] at hget
  simp [hget, heq]

theorem removeIndices_nil (l : List PartnershipDeal) :
    removeIndices l [] = l := rfl

theorem renewalStep_active_shape (e : Engine) (month : Nat)
    (st : TrialState) (p : PartnershipDeal) :
    (renewalStep e month st p).active_partnerships =
      st.active_partnerships ∨
    ∃ r : PartnershipDeal,
      (renewalStep e month st p).active_partnerships =
        st.active_partnerships ++ [r] ∧
      ∃ k : ℕ, 1 ≤ k ∧ k ≤ 3 ∧
        r.end_month = min (month + k * 12) (totalMonths e) := by
  unfold renewalStep
  by_cases hb : p.brand_name ∈ st.blocked_brands
  · rw [if_pos hb]
    exact Or.inl rfl
  · rw [if_neg hb]
    simp only []
    by_cases hd : (st.rng.next).1 < 1/2
    · rw [if_pos hd]
      cases hfind : e.brand_agents.find?
          (fun b => b.brand_name == p.brand_name) with
      | none =>
          exact Or.inl rfl
      | some rb =>
          simp only []
          by_cases halloc : (macron_capacity_allocation e.config
              e.product_list p.annual_units p.model st.tracker rb
              (st.rng.next).2).1.1 > 0
          · rw [if_pos halloc]
            refine Or.inr ⟨_, rfl, ?_⟩
            have hk := pyRandint_fst_mem ((macron_capacity_allocation
              e.config e.product_list p.annual_units p.model st.tracker rb
              (st.rng.next).2).2) (a := 1) (b := 3) (by norm_num)
            refine ⟨(pyRandint ((macron_capacity_allocation e.config
              e.product_list p.annual_units p.model st.tracker rb
              (st.rng.next).2).2) 1 3).1.toNat, ?_, ?_, rfl⟩
            · omega
            · omega
          · rw [if_neg halloc]
            exact Or.inl rfl
    · rw [if_neg hd]
      exact Or.inl rfl

/-- C6: Deal expiry timing — a deal created in month 1 with a 12-month
duration (so `end_month = min (1 + 12) total_months = 13` by the creation
formula) has its capacity released exactly at the month-13 check of the
monthly loop: for every other month the expiry phase leaves the state
untouched, and at month 13 the expiry phase equals releasing the deal's
capacity first and only then running the renewal branch (whose allocation
therefore sees the released tracker), followed by the removal of the
expired deal. -/
theorem C6_expiry_timing (e : Engine) (fuel : Nat) (st : TrialState)
    (d : PartnershipDeal)
    (hd : d.end_month = min (1 + 12) (totalMonths e))
    (htot : 14 ≤ totalMonths e)
    (hactive : st.active_partnerships = [d])
    (hfuel : 3 ≤ fuel) :
    d.end_month = 13 ∧
    (∀ m : Nat, m ≠ 13 → expiryPhase e m fuel st = st) ∧
    (expiryPhase e 13 fuel st =
      { renewalStep e 13
          { st with tracker := releaseDealCapacity st.tracker d } d with
        active_partnerships := removeIndices
          (renewalStep e 13
            { st with tracker := releaseDealCapacity st.tracker d }
            d).active_partnerships [0] }) := by
  have h13 : d.end_month = 13 := by
    rw [hd]
    omega
  obtain ⟨f, rfl⟩ : ∃ f, fuel = f + 3 := ⟨fuel - 3, by omega⟩
  have hget0 : st.active_partnerships.get? 0 = some d := by
    rw [hactive]
    rfl
  refine ⟨h13, ?_, ?_⟩
  · intro m hm
    unfold expiryPhase
    rw [show f + 3 = (f + 2) + 1 from rfl,
      expiryLoop_skip e m (f + 2) 0 st [] d hget0 (by omega),
      expiryLoop_stop e m (f + 2) 1 st [] (by rw [hactive]; rfl)]
    rfl
  · set st1 : TrialState :=
      { st with tracker := releaseDealCapacity st.tracker d } with hst1
    set st2 : TrialState := renewalStep e 13 st1 d with hst2
    have hact1 : st1.active_partnerships = [d] := hactive
    unfold expiryPhase
    rw [show f + 3 = (f + 2) + 1 from rfl,
      expiryLoop_expire e 13 (f + 2) 0 st [] d hget0 h13]
    simp only [List.nil_append]
    rw [← hst1, ← hst2]
    rcases renewalStep_active_shape e 13 st1 d with hshape | ⟨r, hshape, k, hk1,
        hk3, hkend⟩
    · have hget1 : st2.active_partnerships.get? 1 = none := by
        rw [hshape, hact1]
        rfl
      rw [expiryLoop_stop e 13 (f + 2) 1 st2 [0] hget1]
    · have hget1 : st2.active_partnerships.get? 1 = some r := by
        rw [hshape, hact1]
        rfl
      have hrend : r.end_month ≠ 13 := by
        rw [hkend]
        omega
      rw [show f + 2 = (f + 1) + 1 from rfl,
        expiryLoop_skip e 13 (f + 1) 1 st2 [0] r hget1 hrend]
      have hget2 : st2.active_partnerships.get? 2 = none := by
        rw [hshape, hact1]
        rfl
      rw [expiryLoop_stop e 13 (f + 1) 2 st2 [0] hget2]

theorem C6_witness :
    dealBeta.end_month = 13 ∧ expiryPhase engExpiry 5 3 stBeta = stBeta :=
  ⟨(C6_expiry_timing engExpiry 3 stBeta dealBeta (by decide) (by decide) rfl
      (by decide)).1,
   (C6_expiry_timing engExpiry 3 stBeta dealBeta (by decide) (by decide) rfl
      (by decide)).2.1 5 (by decide)⟩

end Macron
